import Mathlib

set_option autoImplicit false

/-! Trajectory cost of the DP polynomial path planner.

Shallow embedding of `modules/planning/tasks/dp_poly_path/trajectory_cost.cc`.

Conventions of the embedding:

* A C++ `double` is the rational number it holds. The quotient that fixes the number of
  time stamps is rounded to the nearest double (`fdiv`), as the hardware does, because
  its floor is stored. The cost loops are embedded twice: in exact arithmetic
  (`pathLoop`, `timeLoop`), which is what the statements marked "exact arithmetic" are
  about, and, for the path cost, with every operation rounded to the nearest double
  (`pathLoopDouble`).
* Collaborators whose code lives in other files (reference line, speed data, curve,
  obstacle prediction, box distance, `atan2`, `NormalizeAngle`) are fields of structures:
  every theorem holds for all of their possible behaviours.
* `std::vector::at` is a lookup that can fail, so the obstacle cost is an `Option`;
  the `while` loop of the path cost can run forever, so it takes fuel.
-/

namespace apollo
namespace planning

/-! ## Data model -/

/-- Source `common::math::Vec2d`. -/
structure Vec2d where
  x : ℚ
  y : ℚ
deriving DecidableEq

/-- Source `common::math::Box2d`, as built by `{center, heading, length, width}`. -/
structure Box2d where
  center : Vec2d
  heading : ℚ
  length : ℚ
  width : ℚ
deriving DecidableEq

/-- Source `common::SLPoint`: station and lateral offset. -/
structure SLPoint where
  s : ℚ
  l : ℚ
deriving DecidableEq

/-- Source `common::TrajectoryPoint`, the predicted pose of an obstacle at a time. -/
structure TrajectoryPoint where
  x : ℚ
  y : ℚ
  theta : ℚ
  relative_time : ℚ
deriving DecidableEq

/-- Source `ReferencePoint`: the two fields the cost reads. -/
structure ReferencePoint where
  kappa : ℚ
  heading : ℚ
deriving DecidableEq

/-- Source `DpPolyPathConfig`: the configured options read by the cost. -/
structure DpPolyPathConfig where
  eval_time_interval : ℚ
  path_resolution : ℚ
  path_l_cost : ℚ
  path_dl_cost : ℚ
  obstacle_ignore_distance : ℚ
  obstacle_collision_distance : ℚ
  obstacle_risk_distance : ℚ
  obstacle_collision_cost : ℚ

/-- Source `common::VehicleParam`: ego length and width. -/
structure VehicleParam where
  length : ℚ
  width : ℚ

/-- Source `ReferenceLine`: `SLToXY` (its out-parameter) and `GetReferencePoint`. -/
structure ReferenceLine where
  SLToXY : SLPoint → Vec2d
  GetReferencePoint : ℚ → ReferencePoint

/-- Source `SpeedData`: `TotalTime()` and the `s()` of the speed point that
`EvaluateByTime(t, &speed_point)` leaves in its out-parameter. -/
structure SpeedData where
  TotalTime : ℚ
  EvaluateByTime : ℚ → ℚ

/-- Source `QuinticPolynomialCurve1d`: `Evaluate(order, param)`. -/
structure QuinticPolynomialCurve1d where
  Evaluate : ℕ → ℚ → ℚ

/-- Source `Obstacle`: `IsVirtualObstacle(Perception())`, `GetPointAtTime`, `GetBoundingBox`. -/
structure Obstacle where
  IsVirtual : Bool
  GetPointAtTime : ℚ → TrajectoryPoint
  GetBoundingBox : TrajectoryPoint → Box2d

/-- Source `PathObstacle`: `IsIgnore()` and `obstacle()`. -/
structure PathObstacle where
  IsIgnore : Bool
  obstacle : Obstacle

/-- Library functions used by the obstacle cost: `Box2d::DistanceTo` (receiver first),
`std::atan2` and `common::math::NormalizeAngle`. -/
structure Geometry where
  DistanceTo : Box2d → Box2d → ℚ
  atan2 : ℚ → ℚ → ℚ
  NormalizeAngle : ℚ → ℚ

/-- The members of `TrajectoryCost` after construction. -/
structure TrajectoryCost where
  config_ : DpPolyPathConfig
  reference_line_ : ReferenceLine
  vehicle_param_ : VehicleParam
  heuristic_speed_data_ : SpeedData
  init_sl_point_ : SLPoint
  num_of_time_stamps_ : ℕ
  obstacle_boxes_ : List (List Box2d)

/-! ## Piecewise distance costs (lines 158-164) -/

/-- Source `TrajectoryCost::RiskDistanceCost`. -/
def RiskDistanceCost (distance : ℚ) : ℚ :=
  (5 - distance) * (5 - distance) * 10

/-- Source `TrajectoryCost::RegularDistanceCost`. -/
def RegularDistanceCost (distance : ℚ) : ℚ :=
  max (20 - distance) 0

/-! ## Constructor (lines 38-72) -/

/-- Round to the nearest integer, ties to the even one. -/
def roundHalfEven (y : ℚ) : ℤ :=
  if y - ⌊y⌋ < 1 / 2 then ⌊y⌋
  else if 1 / 2 < y - ⌊y⌋ then ⌊y⌋ + 1
  else if ⌊y⌋ % 2 = 0 then ⌊y⌋ else ⌊y⌋ + 1

/-- The double nearest to `x`: round to nearest, ties to even, with a significand of 53
bits (IEEE 754 binary64; overflow and subnormal numbers are not modelled). -/
def roundDouble (x : ℚ) : ℚ :=
  if x = 0 then 0
  else (roundHalfEven (x / 2 ^ (Int.log 2 |x| - 52)) : ℚ) * 2 ^ (Int.log 2 |x| - 52)

/-- Double addition. -/
def fadd (a b : ℚ) : ℚ := roundDouble (a + b)

/-- Double subtraction. -/
def fsub (a b : ℚ) : ℚ := roundDouble (a - b)

/-- Double multiplication. -/
def fmul (a b : ℚ) : ℚ := roundDouble (a * b)

/-- Double division, for a divisor other than zero. -/
def fdiv (a b : ℚ) : ℚ := roundDouble (a / b)

/-- Why the constructor does not hand back an evaluator. -/
inductive ConstructFault where
  /-- Loop `for (uint32_t t = 0; t <= num_of_time_stamps_; ++t)` with
  `num_of_time_stamps_ = 2^32 - 1`: the guard holds for every `uint32_t`. -/
  | box_loop_diverges
deriving DecidableEq

/-- Lines 51-52: `static_cast<uint32_t>(std::floor(total_time / eval_time_interval))`, the
quotient being the double quotient. The C++ standard leaves the conversion of a value
outside the range of `uint32_t` undefined; the embedding follows the conversion the
compilers emit on x86-64 (truncation to a signed 64-bit integer, of which the low 32 bits
are kept; an infinite, undefined or too large quotient yields `0`). -/
def castTimeStamps (total_time eval_time_interval : ℚ) : ℕ :=
  if eval_time_interval = 0 then 0
  else
    let q : ℤ := Int.floor (fdiv total_time eval_time_interval)
    if -(2 ^ 63) < q ∧ q < 2 ^ 63 then (q % 2 ^ 32).toNat else 0

/-- Lines 63-69: the loop `for (t = 0; t <= num_of_time_stamps_; ++t)`, with `remaining`
iterations to go, pushing one box per iteration onto `box_by_time`. -/
def boxByTimeLoop (eval_time_interval : ℚ) (ptr_obstacle : Obstacle) :
    (remaining : ℕ) → (t : ℕ) → (box_by_time : List Box2d) → List Box2d
  | 0, _, box_by_time => box_by_time
  | remaining + 1, t, box_by_time =>
    let trajectory_point := ptr_obstacle.GetPointAtTime ((t : ℚ) * eval_time_interval)
    let obstacle_box := ptr_obstacle.GetBoundingBox trajectory_point
    boxByTimeLoop eval_time_interval ptr_obstacle remaining (t + 1)
      (box_by_time ++ [obstacle_box])

/-- Lines 54-71: the loop over the input obstacles, pushing onto `obstacle_boxes_`. -/
def obstacleLoop (eval_time_interval : ℚ) (num_of_time_stamps : ℕ) :
    (obstacles : List PathObstacle) → (obstacle_boxes : List (List Box2d)) →
      Except ConstructFault (List (List Box2d))
  | [], obstacle_boxes => .ok obstacle_boxes
  | ptr_path_obstacle :: rest, obstacle_boxes =>
    if ptr_path_obstacle.IsIgnore then
      obstacleLoop eval_time_interval num_of_time_stamps rest obstacle_boxes
    else if ptr_path_obstacle.obstacle.IsVirtual then
      obstacleLoop eval_time_interval num_of_time_stamps rest obstacle_boxes
    else if num_of_time_stamps = 2 ^ 32 - 1 then
      .error .box_loop_diverges
    else
      let box_by_time :=
        boxByTimeLoop eval_time_interval ptr_path_obstacle.obstacle
          (num_of_time_stamps + 1) 0 []
      obstacleLoop eval_time_interval num_of_time_stamps rest
        (obstacle_boxes ++ [box_by_time])

/-- Source `TrajectoryCost::TrajectoryCost`. `FLAGS_prediction_total_time` is the global flag. -/
def TrajectoryCost.construct (config : DpPolyPathConfig) (reference_line : ReferenceLine)
    (obstacles : List PathObstacle) (vehicle_param : VehicleParam)
    (heuristic_speed_data : SpeedData) (init_sl_point : SLPoint)
    (FLAGS_prediction_total_time : ℚ) : Except ConstructFault TrajectoryCost :=
  let total_time := min heuristic_speed_data.TotalTime FLAGS_prediction_total_time
  let num_of_time_stamps := castTimeStamps total_time config.eval_time_interval
  match obstacleLoop config.eval_time_interval num_of_time_stamps obstacles [] with
  | .error e => .error e
  | .ok obstacle_boxes =>
    .ok { config_ := config
          reference_line_ := reference_line
          vehicle_param_ := vehicle_param
          heuristic_speed_data_ := heuristic_speed_data
          init_sl_point_ := init_sl_point
          num_of_time_stamps_ := num_of_time_stamps
          obstacle_boxes_ := obstacle_boxes }

/-! ## Path cost (lines 74-89) -/

/-- The `while (path_s < end_s - start_s)` loop of `CalculatePathCost`, from the state
`(path_cost, path_s)`, in exact arithmetic. One unit of fuel pays for one iteration;
`none` means the fuel ran out while the guard still held. -/
def pathLoop (config : DpPolyPathConfig) (curve : QuinticPolynomialCurve1d)
    (start_s end_s : ℚ) : (fuel : ℕ) → (path_cost path_s : ℚ) → Option ℚ
  | fuel, path_cost, path_s =>
    if path_s < end_s - start_s then
      match fuel with
      | 0 => none
      | fuel + 1 =>
        let l := |curve.Evaluate 0 path_s|
        let path_cost := path_cost + l * config.path_l_cost
        let dl := |curve.Evaluate 1 path_s|
        let path_cost := path_cost + dl * config.path_dl_cost
        pathLoop config curve start_s end_s fuel path_cost (path_s + config.path_resolution)
    else some path_cost

/-- Source `TrajectoryCost::CalculatePathCost`, in exact arithmetic. -/
def TrajectoryCost.CalculatePathCost (tc : TrajectoryCost) (fuel : ℕ)
    (curve : QuinticPolynomialCurve1d) (start_s end_s : ℚ) : Option ℚ :=
  pathLoop tc.config_ curve start_s end_s fuel 0 0

/-- The same `while` loop (lines 79-87) with every arithmetic operation rounded to the
nearest double, as the hardware performs it: the subtraction in the guard, the two
products, the two additions to `path_cost` and the addition to `path_s`. -/
def pathLoopDouble (config : DpPolyPathConfig) (curve : QuinticPolynomialCurve1d)
    (start_s end_s : ℚ) : (fuel : ℕ) → (path_cost path_s : ℚ) → Option ℚ
  | fuel, path_cost, path_s =>
    if path_s < fsub end_s start_s then
      match fuel with
      | 0 => none
      | fuel + 1 =>
        let l := |curve.Evaluate 0 path_s|
        let path_cost := fadd path_cost (fmul l config.path_l_cost)
        let dl := |curve.Evaluate 1 path_s|
        let path_cost := fadd path_cost (fmul dl config.path_dl_cost)
        pathLoopDouble config curve start_s end_s fuel path_cost
          (fadd path_s config.path_resolution)
    else some path_cost

/-- Source `TrajectoryCost::CalculatePathCost`, in double arithmetic. -/
def TrajectoryCost.CalculatePathCostDouble (tc : TrajectoryCost) (fuel : ℕ)
    (curve : QuinticPolynomialCurve1d) (start_s end_s : ℚ) : Option ℚ :=
  pathLoopDouble tc.config_ curve start_s end_s fuel 0 0

/-! ## Obstacle cost (lines 91-144) -/

/-- Lines 108-127: the ego box at a sample whose speed point has arc length `speed_s`. -/
def TrajectoryCost.egoBox (tc : TrajectoryCost) (geo : Geometry)
    (curve : QuinticPolynomialCurve1d) (start_s speed_s : ℚ) : Box2d :=
  let s := tc.init_sl_point_.s + speed_s - start_s
  let l := curve.Evaluate 0 s
  let dl := curve.Evaluate 1 s
  let sl : SLPoint := { s := tc.init_sl_point_.s + speed_s, l := l }
  let ego_xy_point := tc.reference_line_.SLToXY sl
  let reference_point := tc.reference_line_.GetReferencePoint (tc.init_sl_point_.s + speed_s)
  let one_minus_kappa_r_d := 1 - reference_point.kappa * l
  let delta_theta := geo.atan2 dl one_minus_kappa_r_d
  let theta := geo.NormalizeAngle (delta_theta + reference_point.heading)
  { center := ego_xy_point, heading := theta
    length := tc.vehicle_param_.length, width := tc.vehicle_param_.width }

/-- Lines 128-141: the loop over the cached obstacle trajectories at time index `index`.
`none` is the `std::out_of_range` of `obstacle_trajectory.at(index)`. -/
def boxLoop (config : DpPolyPathConfig) (geo : Geometry) (ego_box : Box2d) (index : ℕ) :
    (obstacle_boxes : List (List Box2d)) → (obstacle_cost : ℚ) → Option ℚ
  | [], obstacle_cost => some obstacle_cost
  | obstacle_trajectory :: rest, obstacle_cost =>
    match obstacle_trajectory.get? index with
    | none => none
    | some obstacle_box =>
      let distance := geo.DistanceTo obstacle_box ego_box
      if distance > config.obstacle_ignore_distance then
        boxLoop config geo ego_box index rest obstacle_cost
      else if distance ≤ config.obstacle_collision_distance then
        boxLoop config geo ego_box index rest (obstacle_cost + config.obstacle_collision_cost)
      else if distance ≤ config.obstacle_risk_distance then
        boxLoop config geo ego_box index rest (obstacle_cost + RiskDistanceCost distance)
      else
        boxLoop config geo ego_box index rest (obstacle_cost + RegularDistanceCost distance)

/-- Lines 97-142: the loop `for (index = 0; index < num_of_time_stamps_; ++index,
time_stamp += eval_time_interval)`, with `remaining = num_of_time_stamps_ - index`. -/
def timeLoop (tc : TrajectoryCost) (geo : Geometry) (curve : QuinticPolynomialCurve1d)
    (start_s end_s : ℚ) :
    (remaining : ℕ) → (index : ℕ) → (time_stamp : ℚ) → (obstacle_cost : ℚ) → Option ℚ
  | 0, _, _, obstacle_cost => some obstacle_cost
  | remaining + 1, index, time_stamp, obstacle_cost =>
    let speed_point_s := tc.heuristic_speed_data_.EvaluateByTime time_stamp
    if speed_point_s < start_s - tc.init_sl_point_.s then
      timeLoop tc geo curve start_s end_s remaining (index + 1)
        (time_stamp + tc.config_.eval_time_interval) obstacle_cost
    else if speed_point_s > end_s - tc.init_sl_point_.s then
      some obstacle_cost
    else
      let ego_box := tc.egoBox geo curve start_s speed_point_s
      match boxLoop tc.config_ geo ego_box index tc.obstacle_boxes_ obstacle_cost with
      | none => none
      | some obstacle_cost =>
        timeLoop tc geo curve start_s end_s remaining (index + 1)
          (time_stamp + tc.config_.eval_time_interval) obstacle_cost

/-- Source `TrajectoryCost::CalculateObstacleCost`. -/
def TrajectoryCost.CalculateObstacleCost (tc : TrajectoryCost) (geo : Geometry)
    (curve : QuinticPolynomialCurve1d) (start_s end_s : ℚ) : Option ℚ :=
  timeLoop tc geo curve start_s end_s tc.num_of_time_stamps_ 0 0 0

/-! ## Total cost (lines 146-156) -/

/-- Source `TrajectoryCost::Calculate`. -/
def TrajectoryCost.Calculate (tc : TrajectoryCost) (geo : Geometry) (fuel : ℕ)
    (curve : QuinticPolynomialCurve1d) (start_s end_s : ℚ) : Option ℚ :=
  match tc.CalculatePathCost fuel curve start_s end_s with
  | none => none
  | some path_cost =>
    match tc.CalculateObstacleCost geo curve start_s end_s with
    | none => none
    | some obstacle_cost => some (0 + path_cost + obstacle_cost)

/-! ## Specification-side definitions -/

/-- The amount one (time sample, obstacle) pair at box distance `d` adds to the obstacle
cost, in the words of the specification (ignore / collision / risk / regular zone). -/
def pairContribution (config : DpPolyPathConfig) (d : ℚ) : ℚ :=
  if d > config.obstacle_ignore_distance then 0
  else if d ≤ config.obstacle_collision_distance then config.obstacle_collision_cost
  else if d ≤ config.obstacle_risk_distance then RiskDistanceCost d
  else RegularDistanceCost d

/-- What one step of the path walk at offset `s` adds to the path cost. -/
def pathTerm (config : DpPolyPathConfig) (curve : QuinticPolynomialCurve1d) (s : ℚ) : ℚ :=
  |curve.Evaluate 0 s| * config.path_l_cost + |curve.Evaluate 1 s| * config.path_dl_cost

/-- The time samples that reach the obstacle loop: the pairs (time index, arc length of
the speed point) that are neither skipped by `continue` nor cut off by `break`, for the
time loop started at `index` with `remaining` iterations to go. -/
def evaluatedSamples (tc : TrajectoryCost) (start_s end_s : ℚ) :
    (remaining : ℕ) → (index : ℕ) → (time_stamp : ℚ) → List (ℕ × ℚ)
  | 0, _, _ => []
  | remaining + 1, index, time_stamp =>
    let speed_point_s := tc.heuristic_speed_data_.EvaluateByTime time_stamp
    if speed_point_s < start_s - tc.init_sl_point_.s then
      evaluatedSamples tc start_s end_s remaining (index + 1)
        (time_stamp + tc.config_.eval_time_interval)
    else if speed_point_s > end_s - tc.init_sl_point_.s then []
    else
      (index, speed_point_s) ::
        evaluatedSamples tc start_s end_s remaining (index + 1)
          (time_stamp + tc.config_.eval_time_interval)

/-- Number of iterations of the path walk when the resolution is positive. -/
def pathSteps (config : DpPolyPathConfig) (start_s end_s : ℚ) : ℕ :=
  Int.toNat ⌈(end_s - start_s) / config.path_resolution⌉

/-- The sum the obstacle loop adds at one time index: one contribution per cached
obstacle trajectory that has a box at `index`. -/
def boxSum (config : DpPolyPathConfig) (geo : Geometry) (ego_box : Box2d) (index : ℕ)
    (obstacle_boxes : List (List Box2d)) : ℚ :=
  (obstacle_boxes.map (fun obstacle_trajectory =>
    match obstacle_trajectory.get? index with
    | some obstacle_box => pairContribution config (geo.DistanceTo obstacle_box ego_box)
    | none => 0)).sum

/-- The amount the sample `(index, speed_s)` adds to the obstacle cost. -/
def sampleCost (tc : TrajectoryCost) (geo : Geometry) (curve : QuinticPolynomialCurve1d)
    (start_s : ℚ) (sample : ℕ × ℚ) : ℚ :=
  boxSum tc.config_ geo (tc.egoBox geo curve start_s sample.2) sample.1 tc.obstacle_boxes_

/-- The obstacles the constructor keeps: neither flagged ignorable nor virtual. -/
def retained (obstacles : List PathObstacle) : List PathObstacle :=
  obstacles.filter (fun o => !o.IsIgnore && !o.obstacle.IsVirtual)

/-- The footprint sequence of an obstacle: its bounding box at its predicted pose at the
times `t * eval_time_interval`, `t = 0 .. num_of_time_stamps`. -/
def footprint (eval_time_interval : ℚ) (num_of_time_stamps : ℕ) (o : Obstacle) : List Box2d :=
  (List.range (num_of_time_stamps + 1)).map
    (fun (t : ℕ) => o.GetBoundingBox (o.GetPointAtTime ((t : ℚ) * eval_time_interval)))

/-! ## A concrete planning cycle

The scenario of the specification: `init_s = 0`, a speed profile with `0 ↦ 0`, `1 ↦ 5`,
`2 ↦ 12`, unit time interval and unit resolution, a straight reference line, and one
static obstacle. -/

/-- Configuration of the scenario. -/
def demoConfig : DpPolyPathConfig :=
  { eval_time_interval := 1, path_resolution := 1, path_l_cost := 1, path_dl_cost := 1
    obstacle_ignore_distance := 10, obstacle_collision_distance := 1
    obstacle_risk_distance := 3, obstacle_collision_cost := 1000 }

/-- A straight reference line along the x axis. -/
def demoLine : ReferenceLine :=
  { SLToXY := fun sl => { x := sl.s, y := sl.l }
    GetReferencePoint := fun _ => { kappa := 0, heading := 0 } }

/-- Speed profile `0 ↦ 0`, `1 ↦ 5`, later times `↦ 12`, lasting 3 seconds. -/
def demoSpeed : SpeedData :=
  { TotalTime := 3
    EvaluateByTime := fun t => if t = 0 then 0 else if t = 1 then 5 else 12 }

/-- A curve at constant lateral offset `1/2`. -/
def demoCurve : QuinticPolynomialCurve1d :=
  { Evaluate := fun order _ => if order = 0 then 1 / 2 else 0 }

/-- Stand-ins for the library functions: a distance between box centres, and angle
functions that are irrelevant to it. -/
def demoGeo : Geometry :=
  { DistanceTo := fun a b => |a.center.x - b.center.x| + |a.center.y - b.center.y|
    atan2 := fun _ _ => 0
    NormalizeAngle := fun a => a }

/-- A static obstacle at `(7, 1/2)`. -/
def demoObstacle : Obstacle :=
  { IsVirtual := false
    GetPointAtTime := fun t => { x := 7, y := 1 / 2, theta := 0, relative_time := t }
    GetBoundingBox := fun p =>
      { center := { x := p.x, y := p.y }, heading := p.theta, length := 4, width := 2 } }

/-- The box of `demoObstacle` at any time. -/
def demoBox : Box2d :=
  { center := { x := 7, y := 1 / 2 }, heading := 0, length := 4, width := 2 }

/-- The evaluator of the scenario: three time stamps, four cached boxes. -/
def demoCost : TrajectoryCost :=
  { config_ := demoConfig
    reference_line_ := demoLine
    vehicle_param_ := { length := 4, width := 2 }
    heuristic_speed_data_ := demoSpeed
    init_sl_point_ := { s := 0, l := 0 }
    num_of_time_stamps_ := 3
    obstacle_boxes_ := [[demoBox, demoBox, demoBox, demoBox]] }

/-- The scenario obstacle as the planner hands it over: not flagged ignorable. -/
def demoPathObstacle : PathObstacle :=
  { IsIgnore := false, obstacle := demoObstacle }

/-- The input obstacle list of the scenario: an ignorable obstacle, the static obstacle,
and a virtual obstacle. -/
def demoObstacles : List PathObstacle :=
  [{ IsIgnore := true, obstacle := demoObstacle }, demoPathObstacle,
   { IsIgnore := false, obstacle := { demoObstacle with IsVirtual := true } }]

/-- A configuration whose risk threshold `10` lies above the constant `5` built into
`RiskDistanceCost`: collision below 1, risk up to 10, ignore beyond 20. -/
def wideRiskConfig : DpPolyPathConfig :=
  { eval_time_interval := 1, path_resolution := 1, path_l_cost := 1, path_dl_cost := 1
    obstacle_ignore_distance := 20, obstacle_collision_distance := 1
    obstacle_risk_distance := 10, obstacle_collision_cost := 1000 }

/-- The scenario configuration with a zero `path_resolution`. -/
def zeroResolutionConfig : DpPolyPathConfig :=
  { demoConfig with path_resolution := 0 }

/-- The scenario configuration with a negative `eval_time_interval`. -/
def negativeIntervalConfig : DpPolyPathConfig :=
  { demoConfig with eval_time_interval := -1 }

/-- A speed profile of zero duration. -/
def idleSpeed : SpeedData :=
  { TotalTime := 0, EvaluateByTime := fun _ => 0 }

/-- Lines 80-86: the body of the `while` loop of `CalculatePathCost`, on the loop state
`(path_cost, path_s)`. -/
def pathBody (config : DpPolyPathConfig) (curve : QuinticPolynomialCurve1d)
    (state : ℚ × ℚ) : ℚ × ℚ :=
  (state.1 + |curve.Evaluate 0 state.2| * config.path_l_cost
      + |curve.Evaluate 1 state.2| * config.path_dl_cost,
    state.2 + config.path_resolution)

/-- The loop state of `CalculatePathCost` after `k` executions of the body, from the
initial state `path_cost = 0`, `path_s = 0`. -/
def pathState (config : DpPolyPathConfig) (curve : QuinticPolynomialCurve1d) (k : ℕ) : ℚ × ℚ :=
  (pathBody config curve)^[k] (0, 0)

/-- The full-scan variant of the time loop, in the words of the specification: a sample
beyond the candidate's domain is skipped with `continue` instead of ending the loop, so
every index in `[0, N)` is examined. Everything else is as in `timeLoop`. -/
def timeLoopFullScan (tc : TrajectoryCost) (geo : Geometry) (curve : QuinticPolynomialCurve1d)
    (start_s end_s : ℚ) :
    (remaining : ℕ) → (index : ℕ) → (time_stamp : ℚ) → (obstacle_cost : ℚ) → Option ℚ
  | 0, _, _, obstacle_cost => some obstacle_cost
  | remaining + 1, index, time_stamp, obstacle_cost =>
    let speed_point_s := tc.heuristic_speed_data_.EvaluateByTime time_stamp
    if speed_point_s < start_s - tc.init_sl_point_.s then
      timeLoopFullScan tc geo curve start_s end_s remaining (index + 1)
        (time_stamp + tc.config_.eval_time_interval) obstacle_cost
    else if speed_point_s > end_s - tc.init_sl_point_.s then
      timeLoopFullScan tc geo curve start_s end_s remaining (index + 1)
        (time_stamp + tc.config_.eval_time_interval) obstacle_cost
    else
      let ego_box := tc.egoBox geo curve start_s speed_point_s
      match boxLoop tc.config_ geo ego_box index tc.obstacle_boxes_ obstacle_cost with
      | none => none
      | some obstacle_cost =>
        timeLoopFullScan tc geo curve start_s end_s remaining (index + 1)
          (time_stamp + tc.config_.eval_time_interval) obstacle_cost

/-- The full-scan variant of `CalculateObstacleCost`. -/
def TrajectoryCost.CalculateObstacleCostFullScan (tc : TrajectoryCost) (geo : Geometry)
    (curve : QuinticPolynomialCurve1d) (start_s end_s : ℚ) : Option ℚ :=
  timeLoopFullScan tc geo curve start_s end_s tc.num_of_time_stamps_ 0 0 0

/-- The double nearest to `0.1`: `3602879701896397 / 2^55`, slightly above one tenth. -/
def doubleTenth : ℚ := 3602879701896397 / 36028797018963968

/-- The scenario configuration with `eval_time_interval` and `path_resolution` set to
the double `0.1`. -/
def tenthConfig : DpPolyPathConfig :=
  { demoConfig with eval_time_interval := doubleTenth, path_resolution := doubleTenth }

/-- The scenario evaluator with the configuration `tenthConfig`. -/
def tenthCost : TrajectoryCost :=
  { demoCost with config_ := tenthConfig }

/-- A steady speed profile, `t ↦ 5 t`. -/
def steadySpeed : SpeedData :=
  { TotalTime := 3, EvaluateByTime := fun t => 5 * t }

/-- The scenario evaluator with the steady speed profile. -/
def steadyCost : TrajectoryCost :=
  { demoCost with heuristic_speed_data_ := steadySpeed }

/-- The loop states the time loop goes through: the pairs (time index, accumulated time
stamp) at which the speed profile is queried, up to and including the iteration that
breaks, for the loop started at `index` with `remaining` iterations to go. -/
def visitedTimeStamps (tc : TrajectoryCost) (start_s end_s : ℚ) :
    (remaining : ℕ) → (index : ℕ) → (time_stamp : ℚ) → List (ℕ × ℚ)
  | 0, _, _ => []
  | remaining + 1, index, time_stamp =>
    let speed_point_s := tc.heuristic_speed_data_.EvaluateByTime time_stamp
    if speed_point_s < start_s - tc.init_sl_point_.s then
      (index, time_stamp) ::
        visitedTimeStamps tc start_s end_s remaining (index + 1)
          (time_stamp + tc.config_.eval_time_interval)
    else if speed_point_s > end_s - tc.init_sl_point_.s then [(index, time_stamp)]
    else
      (index, time_stamp) ::
        visitedTimeStamps tc start_s end_s remaining (index + 1)
          (time_stamp + tc.config_.eval_time_interval)

/-- The scenario evaluator with another box stored at the last index `N = 3` of the
cached sequence. -/
def demoCostOtherLast : TrajectoryCost :=
  { demoCost with
    obstacle_boxes_ := [[demoBox, demoBox, demoBox,
      { center := { x := 0, y := 0 }, heading := 0, length := 1, width := 1 }]] }

/-! ## Lemmas on the path loop -/

theorem pathLoop_done (config : DpPolyPathConfig) (curve : QuinticPolynomialCurve1d)
    (start_s end_s : ℚ) (fuel : ℕ) (c s : ℚ) (h : ¬ s < end_s - start_s) :
    pathLoop config curve start_s end_s fuel c s = some c := by
  cases fuel <;> simp [pathLoop, h]

theorem pathLoop_zero (config : DpPolyPathConfig) (curve : QuinticPolynomialCurve1d)
    (start_s end_s : ℚ) (c s : ℚ) (h : s < end_s - start_s) :
    pathLoop config curve start_s end_s 0 c s = none := by
  simp [pathLoop, h]

theorem pathLoop_succ (config : DpPolyPathConfig) (curve : QuinticPolynomialCurve1d)
    (start_s end_s : ℚ) (fuel : ℕ) (c s : ℚ) (h : s < end_s - start_s) :
    pathLoop config curve start_s end_s (fuel + 1) c s =
      pathLoop config curve start_s end_s fuel (c + pathTerm config curve s)
        (s + config.path_resolution) := by
  simp [pathLoop, h, pathTerm, add_assoc]

/-- A run of exactly `n` iterations: the guard holds at the first `n` offsets and fails
at the next one. Then any fuel of at least `n` returns the sum of the `n` terms. -/
theorem pathLoop_eq_sum (config : DpPolyPathConfig) (curve : QuinticPolynomialCurve1d)
    (start_s end_s : ℚ) :
    ∀ (n fuel : ℕ) (c s : ℚ), n ≤ fuel →
      (∀ k, k < n → s + (k : ℚ) * config.path_resolution < end_s - start_s) →
      ¬ (s + (n : ℚ) * config.path_resolution < end_s - start_s) →
      pathLoop config curve start_s end_s fuel c s =
        some (c + ((List.range n).map
          (fun (k : ℕ) => pathTerm config curve (s + (k : ℚ) * config.path_resolution))).sum) := by
  intro n
  induction n with
  | zero =>
    intro fuel c s _ _ hstop
    have hs : ¬ s < end_s - start_s := by simpa using hstop
    simp [pathLoop_done _ _ _ _ _ _ _ hs]
  | succ n ih =>
    intro fuel c s hfuel hin hstop
    obtain ⟨fuel, rfl⟩ : ∃ f, fuel = f + 1 := ⟨fuel - 1, by omega⟩
    have h0 : s < end_s - start_s := by simpa using hin 0 (Nat.succ_pos n)
    rw [pathLoop_succ _ _ _ _ _ _ _ h0]
    rw [ih fuel _ _ (by omega)
      (fun k hk => by
        have := hin (k + 1) (by omega)
        push_cast at this
        linarith)
      (by
        intro hlt
        apply hstop
        push_cast
        linarith)]
    rw [List.range_succ_eq_map, List.map_cons, List.sum_cons, List.map_map]
    have hmap : List.map (fun (k : ℕ) => pathTerm config curve
          (s + config.path_resolution + (k : ℚ) * config.path_resolution)) (List.range n) =
        List.map ((fun (k : ℕ) => pathTerm config curve
          (s + (k : ℚ) * config.path_resolution)) ∘ Nat.succ) (List.range n) := by
      apply List.map_congr_left
      intro k _
      simp only [Function.comp, Nat.cast_succ]
      congr 1
      ring
    rw [hmap]
    simp only [Nat.cast_zero, zero_mul, add_zero, add_assoc]

/-- With non-negative weights the path loop never lowers its accumulator. -/
theorem pathLoop_ge (config : DpPolyPathConfig) (curve : QuinticPolynomialCurve1d)
    (start_s end_s : ℚ) (hl : 0 ≤ config.path_l_cost) (hdl : 0 ≤ config.path_dl_cost) :
    ∀ (fuel : ℕ) (c s v : ℚ),
      pathLoop config curve start_s end_s fuel c s = some v → c ≤ v := by
  intro fuel
  induction fuel with
  | zero =>
    intro c s v h
    by_cases hs : s < end_s - start_s
    · simp [pathLoop_zero _ _ _ _ _ _ hs] at h
    · rw [pathLoop_done _ _ _ _ _ _ _ hs] at h
      exact le_of_eq (Option.some.inj h)
  | succ fuel ih =>
    intro c s v h
    by_cases hs : s < end_s - start_s
    · rw [pathLoop_succ _ _ _ _ _ _ _ hs] at h
      have h1 := ih _ _ _ h
      have h2 : 0 ≤ pathTerm config curve s := by
        unfold pathTerm
        have := abs_nonneg (curve.Evaluate 0 s)
        have := abs_nonneg (curve.Evaluate 1 s)
        positivity
      linarith
    · rw [pathLoop_done _ _ _ _ _ _ _ hs] at h
      exact le_of_eq (Option.some.inj h)

theorem pathSteps_inside (config : DpPolyPathConfig) (start_s end_s : ℚ)
    (hres : 0 < config.path_resolution) (k : ℕ) (hk : k < pathSteps config start_s end_s) :
    (0 : ℚ) + (k : ℚ) * config.path_resolution < end_s - start_s := by
  unfold pathSteps at hk
  have h1 : (k : ℤ) < ⌈(end_s - start_s) / config.path_resolution⌉ := by
    have := (Int.lt_toNat).1 hk
    exact this
  have h2 : ((k : ℤ) : ℚ) < (end_s - start_s) / config.path_resolution := Int.lt_ceil.1 h1
  have h3 : (k : ℚ) < (end_s - start_s) / config.path_resolution := by simpa using h2
  have := (lt_div_iff₀ hres).1 h3
  linarith

theorem pathSteps_stop (config : DpPolyPathConfig) (start_s end_s : ℚ)
    (hres : 0 < config.path_resolution) :
    ¬ ((0 : ℚ) + (pathSteps config start_s end_s : ℚ) * config.path_resolution
        < end_s - start_s) := by
  unfold pathSteps
  have h1 : (end_s - start_s) / config.path_resolution ≤
      ((⌈(end_s - start_s) / config.path_resolution⌉ : ℤ) : ℚ) := Int.le_ceil _
  have h2 : ((⌈(end_s - start_s) / config.path_resolution⌉ : ℤ) : ℚ) ≤
      ((Int.toNat ⌈(end_s - start_s) / config.path_resolution⌉ : ℕ) : ℚ) := by
    have := Int.self_le_toNat ⌈(end_s - start_s) / config.path_resolution⌉
    exact_mod_cast this
  have h3 := (div_le_iff₀ hres).1 (le_trans h1 h2)
  linarith

/-- More fuel does not change a returned path cost. -/
theorem pathLoop_fuel_mono (config : DpPolyPathConfig) (curve : QuinticPolynomialCurve1d)
    (start_s end_s : ℚ) :
    ∀ (fuel fuel' : ℕ) (c s v : ℚ), fuel ≤ fuel' →
      pathLoop config curve start_s end_s fuel c s = some v →
      pathLoop config curve start_s end_s fuel' c s = some v := by
  intro fuel
  induction fuel with
  | zero =>
    intro fuel' c s v _ h
    by_cases hs : s < end_s - start_s
    · simp [pathLoop_zero _ _ _ _ _ _ hs] at h
    · rw [pathLoop_done _ _ _ _ _ _ _ hs] at h ⊢
      exact h
  | succ fuel ih =>
    intro fuel' c s v hle h
    by_cases hs : s < end_s - start_s
    · obtain ⟨f, rfl⟩ : ∃ f, fuel' = f + 1 := ⟨fuel' - 1, by omega⟩
      rw [pathLoop_succ _ _ _ _ _ _ _ hs] at h ⊢
      exact ih f _ _ _ (by omega) h
    · rw [pathLoop_done _ _ _ _ _ _ _ hs] at h ⊢
      exact h

/-- With a positive resolution, `pathSteps` units of fuel are enough and the path cost
is the sum of the terms at the offsets `k * path_resolution`, `k < pathSteps`. -/
theorem CalculatePathCost_eq_sum (tc : TrajectoryCost) (curve : QuinticPolynomialCurve1d)
    (start_s end_s : ℚ) (hres : 0 < tc.config_.path_resolution) (fuel : ℕ)
    (hfuel : pathSteps tc.config_ start_s end_s ≤ fuel) :
    tc.CalculatePathCost fuel curve start_s end_s =
      some (((List.range (pathSteps tc.config_ start_s end_s)).map
        (fun (k : ℕ) => pathTerm tc.config_ curve ((k : ℚ) * tc.config_.path_resolution))).sum) := by
  unfold TrajectoryCost.CalculatePathCost
  rw [pathLoop_eq_sum tc.config_ curve start_s end_s _ fuel 0 0 hfuel
    (fun k hk => pathSteps_inside tc.config_ start_s end_s hres k hk)
    (pathSteps_stop tc.config_ start_s end_s hres)]
  simp

/-! ## Lemmas on the obstacle loops -/

theorem pairContribution_nonneg (config : DpPolyPathConfig)
    (hc : 0 ≤ config.obstacle_collision_cost) (d : ℚ) : 0 ≤ pairContribution config d := by
  unfold pairContribution
  split_ifs
  · exact le_refl 0
  · exact hc
  · unfold RiskDistanceCost
    nlinarith [mul_self_nonneg (5 - d)]
  · exact le_max_right _ _

theorem boxSum_nonneg (config : DpPolyPathConfig) (geo : Geometry) (ego_box : Box2d)
    (index : ℕ) (hc : 0 ≤ config.obstacle_collision_cost) (obstacle_boxes : List (List Box2d)) :
    0 ≤ boxSum config geo ego_box index obstacle_boxes := by
  unfold boxSum
  apply List.sum_nonneg
  intro x hx
  obtain ⟨traj, _, rfl⟩ := List.mem_map.1 hx
  cases traj.get? index with
  | none => exact le_refl 0
  | some b => exact pairContribution_nonneg config hc _

/-- One step of the obstacle loop: a trajectory that has a box at `index` adds exactly
`pairContribution` of the box distance. -/
theorem boxLoop_cons (config : DpPolyPathConfig) (geo : Geometry) (ego_box : Box2d)
    (index : ℕ) (traj : List Box2d) (rest : List (List Box2d)) (c : ℚ) (b : Box2d)
    (hb : traj.get? index = some b) :
    boxLoop config geo ego_box index (traj :: rest) c =
      boxLoop config geo ego_box index rest
        (c + pairContribution config (geo.DistanceTo b ego_box)) := by
  simp only [boxLoop, hb, pairContribution]
  split_ifs <;> simp

theorem boxLoop_cons_none (config : DpPolyPathConfig) (geo : Geometry) (ego_box : Box2d)
    (index : ℕ) (traj : List Box2d) (rest : List (List Box2d)) (c : ℚ)
    (hb : traj.get? index = none) :
    boxLoop config geo ego_box index (traj :: rest) c = none := by
  simp only [boxLoop, hb]

/-- Whatever the obstacle loop returns is the accumulator plus `boxSum`. -/
theorem boxLoop_some (config : DpPolyPathConfig) (geo : Geometry) (ego_box : Box2d)
    (index : ℕ) :
    ∀ (obstacle_boxes : List (List Box2d)) (c v : ℚ),
      boxLoop config geo ego_box index obstacle_boxes c = some v →
      v = c + boxSum config geo ego_box index obstacle_boxes := by
  intro obstacle_boxes
  induction obstacle_boxes with
  | nil =>
    intro c v h
    simp only [boxLoop, Option.some.injEq] at h
    simp [boxSum, h]
  | cons traj rest ih =>
    intro c v h
    cases hb : traj.get? index with
    | none => rw [boxLoop_cons_none _ _ _ _ _ _ _ hb] at h; exact absurd h (by simp)
    | some b =>
      rw [boxLoop_cons _ _ _ _ _ _ _ _ hb] at h
      have := ih _ _ h
      rw [this]
      simp only [boxSum, List.map_cons, List.sum_cons, hb]
      ring

/-- The obstacle loop returns when every trajectory has a box at `index`. -/
theorem boxLoop_inRange (config : DpPolyPathConfig) (geo : Geometry) (ego_box : Box2d)
    (index : ℕ) :
    ∀ (obstacle_boxes : List (List Box2d)) (c : ℚ),
      (∀ traj ∈ obstacle_boxes, index < traj.length) →
      boxLoop config geo ego_box index obstacle_boxes c =
        some (c + boxSum config geo ego_box index obstacle_boxes) := by
  intro obstacle_boxes
  induction obstacle_boxes with
  | nil => intro c _; simp [boxLoop, boxSum]
  | cons traj rest ih =>
    intro c hlen
    have hlt : index < traj.length := hlen traj (List.mem_cons_self _ _)
    have hb : traj.get? index = some (traj.get ⟨index, hlt⟩) := List.get?_eq_get hlt
    rw [boxLoop_cons _ _ _ _ _ _ _ _ hb,
      ih _ (fun t ht => hlen t (List.mem_cons_of_mem _ ht))]
    simp only [boxSum, List.map_cons, List.sum_cons, hb]
    congr 1
    ring

theorem timeLoop_zero (tc : TrajectoryCost) (geo : Geometry) (curve : QuinticPolynomialCurve1d)
    (start_s end_s : ℚ) (index : ℕ) (ts c : ℚ) :
    timeLoop tc geo curve start_s end_s 0 index ts c = some c := rfl

/-- Whatever the time loop returns is the accumulator plus the costs of the evaluated
samples. -/
theorem timeLoop_some (tc : TrajectoryCost) (geo : Geometry) (curve : QuinticPolynomialCurve1d)
    (start_s end_s : ℚ) :
    ∀ (remaining index : ℕ) (ts c v : ℚ),
      timeLoop tc geo curve start_s end_s remaining index ts c = some v →
      v = c + ((evaluatedSamples tc start_s end_s remaining index ts).map
        (sampleCost tc geo curve start_s)).sum := by
  intro remaining
  induction remaining with
  | zero =>
    intro index ts c v h
    simp only [timeLoop, Option.some.injEq] at h
    simp [evaluatedSamples, h]
  | succ r ih =>
    intro index ts c v h
    simp only [timeLoop] at h
    simp only [evaluatedSamples]
    split_ifs at h ⊢ with h1 h2
    · exact ih _ _ _ _ h
    · simp only [Option.some.injEq] at h
      simp [h]
    · cases hb : boxLoop tc.config_ geo
          (tc.egoBox geo curve start_s (tc.heuristic_speed_data_.EvaluateByTime ts))
          index tc.obstacle_boxes_ c with
      | none => simp [hb] at h
      | some c1 =>
        simp only [hb] at h
        have e1 := boxLoop_some _ _ _ _ _ _ _ hb
        have e2 := ih _ _ _ _ h
        rw [e2, e1]
        simp only [List.map_cons, List.sum_cons, sampleCost]
        ring

/-- The time loop returns when every cached trajectory has a box at every index the
loop can visit. -/
theorem timeLoop_inRange (tc : TrajectoryCost) (geo : Geometry)
    (curve : QuinticPolynomialCurve1d) (start_s end_s : ℚ) :
    ∀ (remaining index : ℕ) (ts c : ℚ),
      (∀ traj ∈ tc.obstacle_boxes_, index + remaining ≤ traj.length) →
      timeLoop tc geo curve start_s end_s remaining index ts c =
        some (c + ((evaluatedSamples tc start_s end_s remaining index ts).map
          (sampleCost tc geo curve start_s)).sum) := by
  intro remaining
  induction remaining with
  | zero => intro index ts c _; simp [timeLoop, evaluatedSamples]
  | succ r ih =>
    intro index ts c hlen
    have hnext : ∀ traj ∈ tc.obstacle_boxes_, index + 1 + r ≤ traj.length :=
      fun t ht => by have := hlen t ht; omega
    simp only [timeLoop, evaluatedSamples]
    split_ifs with h1 h2
    · exact ih _ _ _ hnext
    · simp
    · rw [boxLoop_inRange _ _ _ _ _ _ (fun t ht => by have := hlen t ht; omega)]
      simp only []
      rw [ih _ _ _ hnext]
      simp only [List.map_cons, List.sum_cons, sampleCost]
      congr 1
      ring

/-- Every evaluated sample sits `k < remaining` steps after the start of the loop, its
arc length is the speed profile at the accumulated time stamp and lies in the window,
and no sample up to it lies beyond the window. -/
theorem mem_evaluatedSamples (tc : TrajectoryCost) (start_s end_s : ℚ) :
    ∀ (remaining index : ℕ) (ts : ℚ) (sample : ℕ × ℚ),
      sample ∈ evaluatedSamples tc start_s end_s remaining index ts →
      ∃ k, k < remaining ∧ sample.1 = index + k ∧
        sample.2 = tc.heuristic_speed_data_.EvaluateByTime
          (ts + (k : ℚ) * tc.config_.eval_time_interval) ∧
        start_s - tc.init_sl_point_.s ≤ sample.2 ∧
        sample.2 ≤ end_s - tc.init_sl_point_.s ∧
        ∀ j, j ≤ k → ¬ (tc.heuristic_speed_data_.EvaluateByTime
          (ts + (j : ℚ) * tc.config_.eval_time_interval) > end_s - tc.init_sl_point_.s) := by
  intro remaining
  induction remaining with
  | zero => intro index ts sample h; simp [evaluatedSamples] at h
  | succ r ih =>
    intro index ts sample h
    simp only [evaluatedSamples] at h
    have shift : ∀ (k : ℕ), ts + tc.config_.eval_time_interval +
        (k : ℚ) * tc.config_.eval_time_interval =
        ts + ((k + 1 : ℕ) : ℚ) * tc.config_.eval_time_interval := by
      intro k; push_cast; ring
    have later : sample ∈ evaluatedSamples tc start_s end_s r (index + 1)
          (ts + tc.config_.eval_time_interval) →
        (start_s - tc.init_sl_point_.s ≤ end_s - tc.init_sl_point_.s →
          ¬ (tc.heuristic_speed_data_.EvaluateByTime ts > end_s - tc.init_sl_point_.s)) →
        ∃ k, k < r + 1 ∧ sample.1 = index + k ∧
          sample.2 = tc.heuristic_speed_data_.EvaluateByTime
            (ts + (k : ℚ) * tc.config_.eval_time_interval) ∧
          start_s - tc.init_sl_point_.s ≤ sample.2 ∧
          sample.2 ≤ end_s - tc.init_sl_point_.s ∧
          ∀ j, j ≤ k → ¬ (tc.heuristic_speed_data_.EvaluateByTime
            (ts + (j : ℚ) * tc.config_.eval_time_interval) > end_s - tc.init_sl_point_.s) := by
      intro hmem h0
      obtain ⟨k, hk, hi, hs, hlo, hhi, hbefore⟩ := ih _ _ _ hmem
      refine ⟨k + 1, by omega, by omega, by rw [hs, shift], hlo, hhi, ?_⟩
      intro j hj
      cases j with
      | zero => simpa using h0 (le_trans hlo hhi)
      | succ j =>
        have := hbefore j (by omega)
        rw [shift] at this
        exact this
    split_ifs at h with h1 h2
    · exact later h (fun hle => not_lt.2 (le_trans (le_of_lt h1) hle))
    · simp at h
    · rcases List.mem_cons.1 h with h | h
      · subst h
        refine ⟨0, by omega, by simp, by simp, by simpa using h1, by simpa using h2, ?_⟩
        intro j hj
        have : j = 0 := by omega
        subst this
        simpa using h2
      · exact later h (fun _ => h2)

/-! ## Non-negativity -/

/-- C1. With `end_s > start_s`, a positive `path_resolution` and non-negative
`path_l_cost`, `path_dl_cost` and `obstacle_collision_cost`, for every curve, speed
profile and footprint cache: every value returned by `CalculatePathCost`, by
`CalculateObstacleCost` and by `Calculate` is `≥ 0`; the path cost is returned for every
fuel of at least `pathSteps`; and `Calculate` returns (a value `≥ 0`) whenever every
cached sequence has a box at each of the `num_of_time_stamps_` indices. -/
theorem Calculate_nonneg (tc : TrajectoryCost) (geo : Geometry)
    (curve : QuinticPolynomialCurve1d) (start_s end_s : ℚ)
    (_hrange : start_s < end_s)
    (hres : 0 < tc.config_.path_resolution)
    (hl : 0 ≤ tc.config_.path_l_cost) (hdl : 0 ≤ tc.config_.path_dl_cost)
    (hc : 0 ≤ tc.config_.obstacle_collision_cost) :
    (∀ fuel v, tc.CalculatePathCost fuel curve start_s end_s = some v → 0 ≤ v) ∧
    (∀ v, tc.CalculateObstacleCost geo curve start_s end_s = some v → 0 ≤ v) ∧
    (∀ fuel v, tc.Calculate geo fuel curve start_s end_s = some v → 0 ≤ v) ∧
    (∃ p, 0 ≤ p ∧ ∀ fuel, pathSteps tc.config_ start_s end_s ≤ fuel →
      tc.CalculatePathCost fuel curve start_s end_s = some p) ∧
    ((∀ traj ∈ tc.obstacle_boxes_, tc.num_of_time_stamps_ ≤ traj.length) →
      ∃ v, 0 ≤ v ∧ ∀ fuel, pathSteps tc.config_ start_s end_s ≤ fuel →
        tc.Calculate geo fuel curve start_s end_s = some v) := by
  have hpath : ∀ fuel v, tc.CalculatePathCost fuel curve start_s end_s = some v → 0 ≤ v :=
    fun fuel v h => pathLoop_ge tc.config_ curve start_s end_s hl hdl fuel 0 0 v h
  have hsamples : ∀ (l : List (ℕ × ℚ)),
      0 ≤ (l.map (sampleCost tc geo curve start_s)).sum := by
    intro l
    apply List.sum_nonneg
    intro x hx
    obtain ⟨smp, _, rfl⟩ := List.mem_map.1 hx
    exact boxSum_nonneg _ _ _ _ hc _
  have hobs : ∀ v, tc.CalculateObstacleCost geo curve start_s end_s = some v → 0 ≤ v := by
    intro v h
    have := timeLoop_some tc geo curve start_s end_s _ _ _ _ _ h
    rw [this]
    have := hsamples (evaluatedSamples tc start_s end_s tc.num_of_time_stamps_ 0 0)
    linarith
  have hpathRet := CalculatePathCost_eq_sum tc curve start_s end_s hres
  refine ⟨hpath, hobs, ?_, ?_, ?_⟩
  · intro fuel v h
    unfold TrajectoryCost.Calculate at h
    cases hp : tc.CalculatePathCost fuel curve start_s end_s with
    | none => simp [hp] at h
    | some p =>
      cases ho : tc.CalculateObstacleCost geo curve start_s end_s with
      | none => simp [hp, ho] at h
      | some o =>
        simp only [hp, ho, Option.some.injEq] at h
        have := hpath fuel p hp
        have := hobs o ho
        linarith
  · exact ⟨_, hpath _ _ (hpathRet _ (le_refl _)), fun fuel hf => hpathRet fuel hf⟩
  · intro hlen
    have ho := timeLoop_inRange tc geo curve start_s end_s tc.num_of_time_stamps_ 0 0 0
      (fun t ht => by simpa using hlen t ht)
    refine ⟨0 + ((List.range (pathSteps tc.config_ start_s end_s)).map
        (fun (k : ℕ) => pathTerm tc.config_ curve ((k : ℚ) * tc.config_.path_resolution))).sum +
      (0 + ((evaluatedSamples tc start_s end_s tc.num_of_time_stamps_ 0 0).map
        (sampleCost tc geo curve start_s)).sum), ?_, fun fuel hf => ?_⟩
    swap
    · unfold TrajectoryCost.Calculate
      rw [hpathRet fuel hf]
      unfold TrajectoryCost.CalculateObstacleCost
      rw [ho]
    · have := hpath _ _ (hpathRet _ (le_refl _))
      have := hobs _ ho
      linarith

/-- C1 at the concrete scenario: the total cost over `[0, 10]` is returned and is `≥ 0`. -/
theorem Calculate_nonneg_witness :
    ∃ v, 0 ≤ v ∧ ∀ fuel, pathSteps demoCost.config_ 0 10 ≤ fuel →
      demoCost.Calculate demoGeo fuel demoCurve 0 10 = some v :=
  (Calculate_nonneg demoCost demoGeo demoCurve 0 10 (by norm_num)
    (by norm_num [demoCost, demoConfig]) (by norm_num [demoCost, demoConfig])
    (by norm_num [demoCost, demoConfig]) (by norm_num [demoCost, demoConfig])).2.2.2.2
    (by simp [demoCost])

/-! ## Obstacle cost: classification and time window -/

/-- C2. Per-pair classification: in the obstacle loop, a cached trajectory with box `b`
at the current index adds exactly `pairContribution` of the distance `d` from `b` to the
ego box, that is `0` if `d > obstacle_ignore_distance`, else `obstacle_collision_cost`
if `d ≤ obstacle_collision_distance`, else `RiskDistanceCost d` if
`d ≤ obstacle_risk_distance`, else `RegularDistanceCost d = max (20 - d) 0`; and the
value of `CalculateObstacleCost` is the sum of these amounts over the evaluated samples
and the cached trajectories (it is returned when every lookup is in range). -/
theorem CalculateObstacleCost_classification (tc : TrajectoryCost) (geo : Geometry)
    (curve : QuinticPolynomialCurve1d) (start_s end_s : ℚ) :
    (∀ (ego_box : Box2d) (index : ℕ) (traj : List Box2d) (rest : List (List Box2d))
        (obstacle_cost : ℚ) (b : Box2d), traj.get? index = some b →
      boxLoop tc.config_ geo ego_box index (traj :: rest) obstacle_cost =
        boxLoop tc.config_ geo ego_box index rest
          (obstacle_cost + pairContribution tc.config_ (geo.DistanceTo b ego_box))) ∧
    (∀ d : ℚ,
      (d > tc.config_.obstacle_ignore_distance → pairContribution tc.config_ d = 0) ∧
      (¬ d > tc.config_.obstacle_ignore_distance →
        d ≤ tc.config_.obstacle_collision_distance →
        pairContribution tc.config_ d = tc.config_.obstacle_collision_cost) ∧
      (¬ d > tc.config_.obstacle_ignore_distance →
        ¬ d ≤ tc.config_.obstacle_collision_distance →
        d ≤ tc.config_.obstacle_risk_distance →
        pairContribution tc.config_ d = RiskDistanceCost d) ∧
      (¬ d > tc.config_.obstacle_ignore_distance →
        ¬ d ≤ tc.config_.obstacle_collision_distance →
        ¬ d ≤ tc.config_.obstacle_risk_distance →
        pairContribution tc.config_ d = RegularDistanceCost d) ∧
      RegularDistanceCost d = max (20 - d) 0) ∧
    (∀ v, tc.CalculateObstacleCost geo curve start_s end_s = some v →
      v = ((evaluatedSamples tc start_s end_s tc.num_of_time_stamps_ 0 0).map
        (fun sample => (tc.obstacle_boxes_.map (fun traj =>
          match traj.get? sample.1 with
          | some b => pairContribution tc.config_
              (geo.DistanceTo b (tc.egoBox geo curve start_s sample.2))
          | none => 0)).sum)).sum) ∧
    ((∀ traj ∈ tc.obstacle_boxes_, tc.num_of_time_stamps_ ≤ traj.length) →
      tc.CalculateObstacleCost geo curve start_s end_s =
        some (((evaluatedSamples tc start_s end_s tc.num_of_time_stamps_ 0 0).map
          (fun sample => (tc.obstacle_boxes_.map (fun traj =>
            match traj.get? sample.1 with
            | some b => pairContribution tc.config_
                (geo.DistanceTo b (tc.egoBox geo curve start_s sample.2))
            | none => 0)).sum)).sum)) := by
  refine ⟨fun ego_box index traj rest c b hb => boxLoop_cons _ _ _ _ _ _ _ _ hb, ?_, ?_, ?_⟩
  · intro d
    refine ⟨?_, ?_, ?_, ?_, rfl⟩
    · intro h; simp [pairContribution, h]
    · intro h1 h2; simp [pairContribution, h1, h2]
    · intro h1 h2 h3; simp [pairContribution, h1, h2, h3]
    · intro h1 h2 h3; simp [pairContribution, h1, h2, h3]
  · intro v h
    have := timeLoop_some tc geo curve start_s end_s _ _ _ _ _ h
    rw [zero_add] at this
    exact this
  · intro hlen
    have := timeLoop_inRange tc geo curve start_s end_s tc.num_of_time_stamps_ 0 0 0
      (fun t ht => by simpa using hlen t ht)
    rw [zero_add] at this
    exact this

/-- C2 at the concrete scenario: the sample at index 0 is at distance 7 (regular zone,
`20 - 7 = 13`), the sample at index 1 at distance 2 (risk zone, `(5 - 2)^2 * 10 = 90`). -/
theorem CalculateObstacleCost_classification_witness :
    demoCost.CalculateObstacleCost demoGeo demoCurve 0 10 = some 103 := by
  have h := (CalculateObstacleCost_classification demoCost demoGeo demoCurve 0 10).2.2.2
    (by simp [demoCost])
  rw [h]
  norm_num [evaluatedSamples, demoCost, demoConfig, demoSpeed, demoCurve, demoGeo,
    demoLine, demoBox, TrajectoryCost.egoBox, pairContribution, RiskDistanceCost,
    RegularDistanceCost, abs_of_pos]

/-- C3. Time-window pruning: the obstacle cost is the sum of the costs of the evaluated
samples only; every evaluated sample has an index below `num_of_time_stamps_`, its
relative arc length is the speed profile at `index * eval_time_interval` and lies in
`[start_s - init_s, end_s - init_s]`, and its index is below every index whose relative
arc length exceeds `end_s - init_s`. With `init_s = 0`, interval 1, profile `0 ↦ 0`,
`1 ↦ 5`, `2 ↦ 12`, at least 3 time stamps and the interval `[0, 10]`, the evaluated
samples are exactly those at `t = 0` and `t = 1`. -/
theorem CalculateObstacleCost_time_window (tc : TrajectoryCost) (geo : Geometry)
    (curve : QuinticPolynomialCurve1d) (start_s end_s : ℚ) :
    (∀ v, tc.CalculateObstacleCost geo curve start_s end_s = some v →
      v = ((evaluatedSamples tc start_s end_s tc.num_of_time_stamps_ 0 0).map
        (sampleCost tc geo curve start_s)).sum) ∧
    (∀ sample ∈ evaluatedSamples tc start_s end_s tc.num_of_time_stamps_ 0 0,
      sample.1 < tc.num_of_time_stamps_ ∧
      sample.2 = tc.heuristic_speed_data_.EvaluateByTime
        ((sample.1 : ℚ) * tc.config_.eval_time_interval) ∧
      start_s - tc.init_sl_point_.s ≤ sample.2 ∧
      sample.2 ≤ end_s - tc.init_sl_point_.s ∧
      ∀ j : ℕ, tc.heuristic_speed_data_.EvaluateByTime
          ((j : ℚ) * tc.config_.eval_time_interval) > end_s - tc.init_sl_point_.s →
        sample.1 < j) ∧
    (tc.init_sl_point_.s = 0 → tc.config_.eval_time_interval = 1 →
      3 ≤ tc.num_of_time_stamps_ →
      tc.heuristic_speed_data_.EvaluateByTime 0 = 0 →
      tc.heuristic_speed_data_.EvaluateByTime 1 = 5 →
      tc.heuristic_speed_data_.EvaluateByTime 2 = 12 →
      evaluatedSamples tc 0 10 tc.num_of_time_stamps_ 0 0 = [(0, 0), (1, 5)]) := by
  refine ⟨fun v h => ?_, fun sample hmem => ?_, ?_⟩
  · have := timeLoop_some tc geo curve start_s end_s _ _ _ _ _ h
    simpa using this
  · obtain ⟨k, hk, hi, hs, hlo, hhi, hbefore⟩ :=
      mem_evaluatedSamples tc start_s end_s _ _ _ _ hmem
    have hik : sample.1 = k := by omega
    refine ⟨by omega, ?_, hlo, hhi, ?_⟩
    · rw [hs, hik]; simp
    · intro j hj
      by_contra hle
      have hjk : j ≤ k := by omega
      have := hbefore j hjk
      simp only [zero_add] at this
      exact this hj
  · intro hinit hint hN h0 h1 h2
    obtain ⟨m, hm⟩ : ∃ m, tc.num_of_time_stamps_ = m + 3 := ⟨tc.num_of_time_stamps_ - 3, by omega⟩
    rw [hm]
    simp only [evaluatedSamples, hinit, hint]
    norm_num [h0, h1, h2]

/-- C3 at the concrete scenario: only the samples at `t = 0` and `t = 1` are evaluated. -/
theorem CalculateObstacleCost_time_window_witness :
    evaluatedSamples demoCost 0 10 demoCost.num_of_time_stamps_ 0 0 = [(0, 0), (1, 5)] :=
  (CalculateObstacleCost_time_window demoCost demoGeo demoCurve 0 10).2.2
    rfl rfl (by simp [demoCost]) (by simp [demoCost, demoSpeed])
    (by simp [demoCost, demoSpeed]) (by norm_num [demoCost, demoSpeed])

/-! ## Shape of the distance costs -/

/-- C4, as stated, fails: with thresholds `1 < 10 < 20` and a collision cost `1000` that
dominates every risk-zone cost, the regular-zone distance `11` costs `9` while the
risk-zone distance `5` costs `0`. -/
theorem threshold_ordering_counterexample :
    wideRiskConfig.obstacle_collision_distance < wideRiskConfig.obstacle_risk_distance ∧
    wideRiskConfig.obstacle_risk_distance < wideRiskConfig.obstacle_ignore_distance ∧
    (∀ d, wideRiskConfig.obstacle_collision_distance < d →
      d ≤ wideRiskConfig.obstacle_risk_distance →
      RiskDistanceCost d ≤ wideRiskConfig.obstacle_collision_cost) ∧
    (21 : ℚ) > wideRiskConfig.obstacle_ignore_distance ∧
    (wideRiskConfig.obstacle_risk_distance < 11 ∧
      (11 : ℚ) ≤ wideRiskConfig.obstacle_ignore_distance) ∧
    (wideRiskConfig.obstacle_collision_distance < 5 ∧
      (5 : ℚ) ≤ wideRiskConfig.obstacle_risk_distance) ∧
    (1 : ℚ) ≤ wideRiskConfig.obstacle_collision_distance ∧
    pairContribution wideRiskConfig 11 = 9 ∧
    pairContribution wideRiskConfig 5 = 0 ∧
    ¬ (pairContribution wideRiskConfig 21 = 0 ∧
      0 ≤ pairContribution wideRiskConfig 11 ∧
      pairContribution wideRiskConfig 11 ≤ pairContribution wideRiskConfig 5 ∧
      pairContribution wideRiskConfig 5 ≤ pairContribution wideRiskConfig 1 ∧
      pairContribution wideRiskConfig 1 = wideRiskConfig.obstacle_collision_cost) := by
  refine ⟨by norm_num [wideRiskConfig], by norm_num [wideRiskConfig], ?_,
    by norm_num [wideRiskConfig], by norm_num [wideRiskConfig],
    by norm_num [wideRiskConfig], by norm_num [wideRiskConfig],
    by norm_num [pairContribution, wideRiskConfig, RegularDistanceCost],
    by norm_num [pairContribution, wideRiskConfig, RiskDistanceCost], ?_⟩
  · intro d h1 h2
    simp only [wideRiskConfig] at h1 h2 ⊢
    unfold RiskDistanceCost
    nlinarith
  · norm_num [pairContribution, wideRiskConfig, RiskDistanceCost, RegularDistanceCost]

/-- C4, amended. With `collision < risk < ignore`, a collision cost at least as large
as every risk-zone cost, and in addition `obstacle_risk_distance ≤ 5` and
`RegularDistanceCost ≤ RiskDistanceCost` at the risk threshold: for `d1` in the ignore
zone, `d2` in the regular zone, `d3` in the risk zone and `d4` in the collision zone,
`cost d1 = 0 ≤ cost d2 ≤ cost d3 ≤ cost d4 = obstacle_collision_cost`. -/
theorem threshold_ordering (config : DpPolyPathConfig) (d1 d2 d3 d4 : ℚ)
    (hcr : config.obstacle_collision_distance < config.obstacle_risk_distance)
    (hri : config.obstacle_risk_distance < config.obstacle_ignore_distance)
    (hdom : ∀ d, config.obstacle_collision_distance < d →
      d ≤ config.obstacle_risk_distance →
      RiskDistanceCost d ≤ config.obstacle_collision_cost)
    (hfive : config.obstacle_risk_distance ≤ 5)
    (hgap : RegularDistanceCost config.obstacle_risk_distance ≤
      RiskDistanceCost config.obstacle_risk_distance)
    (h1 : d1 > config.obstacle_ignore_distance)
    (h2 : config.obstacle_risk_distance < d2) (h2i : d2 ≤ config.obstacle_ignore_distance)
    (h3 : config.obstacle_collision_distance < d3) (h3r : d3 ≤ config.obstacle_risk_distance)
    (h4 : d4 ≤ config.obstacle_collision_distance) :
    pairContribution config d1 = 0 ∧
    0 ≤ pairContribution config d2 ∧
    pairContribution config d2 ≤ pairContribution config d3 ∧
    pairContribution config d3 ≤ pairContribution config d4 ∧
    pairContribution config d4 = config.obstacle_collision_cost := by
  have e1 : pairContribution config d1 = 0 := by simp [pairContribution, h1]
  have e2 : pairContribution config d2 = RegularDistanceCost d2 := by
    have a : ¬ d2 > config.obstacle_ignore_distance := not_lt.2 h2i
    have b : ¬ d2 ≤ config.obstacle_collision_distance := not_le.2 (lt_trans hcr h2)
    have c : ¬ d2 ≤ config.obstacle_risk_distance := not_le.2 h2
    simp [pairContribution, a, b, c]
  have e3 : pairContribution config d3 = RiskDistanceCost d3 := by
    have a : ¬ d3 > config.obstacle_ignore_distance :=
      not_lt.2 (le_trans h3r (le_of_lt hri))
    have b : ¬ d3 ≤ config.obstacle_collision_distance := not_le.2 h3
    simp [pairContribution, a, b, h3r]
  have e4 : pairContribution config d4 = config.obstacle_collision_cost := by
    have a : ¬ d4 > config.obstacle_ignore_distance :=
      not_lt.2 (le_trans h4 (le_of_lt (lt_trans hcr hri)))
    simp [pairContribution, a, h4]
  refine ⟨e1, ?_, ?_, ?_, e4⟩
  · rw [e2]; exact le_max_right _ _
  · rw [e2, e3]
    have hreg : RegularDistanceCost d2 ≤ RegularDistanceCost config.obstacle_risk_distance := by
      unfold RegularDistanceCost
      exact max_le_max (by linarith) (le_refl 0)
    have hrisk : RiskDistanceCost config.obstacle_risk_distance ≤ RiskDistanceCost d3 := by
      unfold RiskDistanceCost
      nlinarith
    exact le_trans hreg (le_trans hgap hrisk)
  · rw [e3, e4]; exact hdom d3 h3 h3r

/-- C4 (amended) at the scenario configuration `1 < 3 < 10`, at distances 11, 4, 2, 1:
`0 ≤ 16 ≤ 90 ≤ 1000`. -/
theorem threshold_ordering_witness :
    pairContribution demoConfig 11 = 0 ∧
    0 ≤ pairContribution demoConfig 4 ∧
    pairContribution demoConfig 4 ≤ pairContribution demoConfig 2 ∧
    pairContribution demoConfig 2 ≤ pairContribution demoConfig 1 ∧
    pairContribution demoConfig 1 = demoConfig.obstacle_collision_cost :=
  threshold_ordering demoConfig 11 4 2 1 (by norm_num [demoConfig])
    (by norm_num [demoConfig])
    (by
      intro d h1 h2
      simp only [demoConfig] at h1 h2 ⊢
      unfold RiskDistanceCost
      nlinarith)
    (by norm_num [demoConfig])
    (by norm_num [demoConfig, RegularDistanceCost, RiskDistanceCost])
    (by norm_num [demoConfig]) (by norm_num [demoConfig]) (by norm_num [demoConfig])
    (by norm_num [demoConfig]) (by norm_num [demoConfig]) (by norm_num [demoConfig])

/-- C9, as stated, fails: with `obstacle_risk_distance = 10` the distances `5 < 6` are
both within the risk threshold, yet `RiskDistanceCost 5 = 0` and `RiskDistanceCost 6 = 10`. -/
theorem RiskDistanceCost_counterexample :
    (5 : ℚ) < 6 ∧ (6 : ℚ) ≤ wideRiskConfig.obstacle_risk_distance ∧
    RiskDistanceCost 5 = 0 ∧ RiskDistanceCost 6 = 10 ∧
    ¬ (RiskDistanceCost 5 > RiskDistanceCost 6) := by
  norm_num [wideRiskConfig, RiskDistanceCost]

/-- C9, amended. `RiskDistanceCost` is strictly decreasing up to its built-in constant:
for all `d1 < d2 ≤ 5`, `RiskDistanceCost d1 > RiskDistanceCost d2`. -/
theorem RiskDistanceCost_strictAnti (d1 d2 : ℚ) (h12 : d1 < d2) (h2 : d2 ≤ 5) :
    RiskDistanceCost d1 > RiskDistanceCost d2 := by
  unfold RiskDistanceCost
  nlinarith

/-- C9 (amended) at `d1 = 1`, `d2 = 2`: `160 > 90`. -/
theorem RiskDistanceCost_strictAnti_witness :
    (1 : ℚ) < 2 ∧ (2 : ℚ) ≤ 5 ∧ RiskDistanceCost 1 > RiskDistanceCost 2 :=
  ⟨by norm_num, by norm_num, RiskDistanceCost_strictAnti 1 2 (by norm_num) (by norm_num)⟩

/-- C10. `RegularDistanceCost d` is `20 - d` for `d` below the constant 20 and `0` for
every `d ≥ 20`; it is non-negative and non-increasing in `d`. -/
theorem RegularDistanceCost_shape (d : ℚ) :
    (d < 20 → RegularDistanceCost d = 20 - d) ∧
    (20 ≤ d → RegularDistanceCost d = 0) ∧
    0 ≤ RegularDistanceCost d ∧
    ∀ d', d ≤ d' → RegularDistanceCost d' ≤ RegularDistanceCost d := by
  unfold RegularDistanceCost
  refine ⟨fun h => max_eq_left (by linarith), fun h => max_eq_right (by linarith),
    le_max_right _ _, fun d' h => max_le_max (by linarith) (le_refl 0)⟩

/-- C10 at `d = 3` (below the constant) and `d = 25` (above it). -/
theorem RegularDistanceCost_shape_witness :
    RegularDistanceCost 3 = 20 - 3 ∧ RegularDistanceCost 25 = 0 :=
  ⟨(RegularDistanceCost_shape 3).1 (by norm_num),
    (RegularDistanceCost_shape 25).2.1 (by norm_num)⟩

/-! ## Path cost scaling -/

/-- The path cost of a curve whose terms are all equal to `t`. -/
theorem CalculatePathCost_const (tc : TrajectoryCost) (curve : QuinticPolynomialCurve1d)
    (start_s end_s t : ℚ) (hres : 0 < tc.config_.path_resolution)
    (ht : ∀ s, pathTerm tc.config_ curve s = t) (fuel : ℕ)
    (hfuel : pathSteps tc.config_ start_s end_s ≤ fuel) :
    tc.CalculatePathCost fuel curve start_s end_s =
      some ((pathSteps tc.config_ start_s end_s : ℚ) * t) := by
  rw [CalculatePathCost_eq_sum tc curve start_s end_s hres fuel hfuel]
  simp [ht]

/-- C8, amended. Path cost scaling in exact arithmetic (`path_s` and the cost
accumulated without rounding), for a positive `path_resolution`. For a curve with constant
lateral offset `L ≥ 0` and zero lateral rate over a range `R = end_s - start_s > 0`,
`CalculatePathCost` returns `⌈R / path_resolution⌉ * L * path_l_cost`, which differs
from `(R / path_resolution) * L * path_l_cost` by at most the size of one step's
contribution `L * path_l_cost`. For a curve with zero lateral offset and zero lateral
rate it returns exactly `0`. -/
theorem CalculatePathCost_scaling (tc : TrajectoryCost) (curve : QuinticPolynomialCurve1d)
    (start_s end_s : ℚ) (hres : 0 < tc.config_.path_resolution)
    (hrate : ∀ s, curve.Evaluate 1 s = 0) :
    (∀ L : ℚ, 0 ≤ L → start_s < end_s → (∀ s, curve.Evaluate 0 s = L) →
      (∀ fuel, pathSteps tc.config_ start_s end_s ≤ fuel →
        tc.CalculatePathCost fuel curve start_s end_s =
          some ((⌈(end_s - start_s) / tc.config_.path_resolution⌉ : ℚ) * L *
            tc.config_.path_l_cost)) ∧
      |(⌈(end_s - start_s) / tc.config_.path_resolution⌉ : ℚ) * L * tc.config_.path_l_cost -
          (end_s - start_s) / tc.config_.path_resolution * L * tc.config_.path_l_cost| ≤
        |L * tc.config_.path_l_cost| ∧
      (0 ≤ tc.config_.path_l_cost →
        |(⌈(end_s - start_s) / tc.config_.path_resolution⌉ : ℚ) * L * tc.config_.path_l_cost -
            (end_s - start_s) / tc.config_.path_resolution * L * tc.config_.path_l_cost| ≤
          L * tc.config_.path_l_cost)) ∧
    ((∀ s, curve.Evaluate 0 s = 0) →
      (∀ fuel, pathSteps tc.config_ start_s end_s ≤ fuel →
        tc.CalculatePathCost fuel curve start_s end_s = some 0) ∧
      ∀ fuel v, tc.CalculatePathCost fuel curve start_s end_s = some v → v = 0) := by
  constructor
  · intro L hL hR hoff
    have hterm : ∀ s, pathTerm tc.config_ curve s = L * tc.config_.path_l_cost := by
      intro s
      simp [pathTerm, hoff, hrate, abs_of_nonneg hL]
    have hx : 0 < (end_s - start_s) / tc.config_.path_resolution :=
      div_pos (by linarith) hres
    have hceil : 0 < ⌈(end_s - start_s) / tc.config_.path_resolution⌉ := Int.ceil_pos.2 hx
    have hcast : ((pathSteps tc.config_ start_s end_s : ℕ) : ℚ) =
        ((⌈(end_s - start_s) / tc.config_.path_resolution⌉ : ℤ) : ℚ) := by
      unfold pathSteps
      have := Int.toNat_of_nonneg (le_of_lt hceil)
      exact_mod_cast this
    have hbound : |(⌈(end_s - start_s) / tc.config_.path_resolution⌉ : ℚ) * L *
          tc.config_.path_l_cost -
          (end_s - start_s) / tc.config_.path_resolution * L * tc.config_.path_l_cost| ≤
        |L * tc.config_.path_l_cost| := by
      have hlo := Int.le_ceil ((end_s - start_s) / tc.config_.path_resolution)
      have hhi := Int.ceil_lt_add_one ((end_s - start_s) / tc.config_.path_resolution)
      have e : (⌈(end_s - start_s) / tc.config_.path_resolution⌉ : ℚ) * L *
          tc.config_.path_l_cost -
          (end_s - start_s) / tc.config_.path_resolution * L * tc.config_.path_l_cost =
          ((⌈(end_s - start_s) / tc.config_.path_resolution⌉ : ℚ) -
            (end_s - start_s) / tc.config_.path_resolution) *
            (L * tc.config_.path_l_cost) := by ring
      rw [e, abs_mul]
      have h1 : |(⌈(end_s - start_s) / tc.config_.path_resolution⌉ : ℚ) -
          (end_s - start_s) / tc.config_.path_resolution| ≤ 1 := by
        rw [abs_le]
        constructor <;> linarith
      calc _ ≤ 1 * |L * tc.config_.path_l_cost| :=
            mul_le_mul_of_nonneg_right h1 (abs_nonneg _)
        _ = |L * tc.config_.path_l_cost| := one_mul _
    refine ⟨fun fuel hfuel => ?_, hbound, fun hw => ?_⟩
    · rw [CalculatePathCost_const tc curve start_s end_s _ hres hterm fuel hfuel, hcast]
      congr 1
      ring
    · rw [abs_of_nonneg (mul_nonneg hL hw)] at hbound
      exact hbound
  · intro hoff
    have hterm : ∀ s, pathTerm tc.config_ curve s = 0 := by
      intro s
      simp [pathTerm, hoff, hrate]
    have hret : ∀ fuel, pathSteps tc.config_ start_s end_s ≤ fuel →
        tc.CalculatePathCost fuel curve start_s end_s = some 0 := by
      intro fuel hfuel
      rw [CalculatePathCost_const tc curve start_s end_s _ hres hterm fuel hfuel]
      simp
    refine ⟨hret, fun fuel v h => ?_⟩
    by_cases hf : pathSteps tc.config_ start_s end_s ≤ fuel
    · rw [hret fuel hf] at h
      exact (Option.some.inj h).symm
    · have hmore := pathLoop_fuel_mono tc.config_ curve start_s end_s fuel
        (pathSteps tc.config_ start_s end_s) 0 0 v (le_of_lt (not_le.1 hf)) h
      have hzero := hret (pathSteps tc.config_ start_s end_s) (le_refl _)
      unfold TrajectoryCost.CalculatePathCost at hzero
      rw [hmore] at hzero
      exact Option.some.inj hzero

/-- C8 (amended) at the concrete scenario: offset `1/2` over `[0, 10]` at resolution 1, with fuel
for 10 steps, costs `⌈10 / 1⌉ * (1/2) * 1`. -/
theorem CalculatePathCost_scaling_witness :
    demoCost.CalculatePathCost 10 demoCurve 0 10 =
      some ((⌈((10 : ℚ) - 0) / demoCost.config_.path_resolution⌉ : ℚ) * (1 / 2) *
        demoCost.config_.path_l_cost) :=
  ((CalculatePathCost_scaling demoCost demoCurve 0 10
    (by norm_num [demoCost, demoConfig]) (by intro s; simp [demoCurve])).1 (1 / 2)
    (by norm_num) (by norm_num) (by intro s; simp [demoCurve])).1 10
    (by norm_num [pathSteps, demoCost, demoConfig])

/-! ## Lemmas on the constructor -/

theorem boxByTimeLoop_eq (eval_time_interval : ℚ) (o : Obstacle) :
    ∀ (remaining t : ℕ) (acc : List Box2d),
      boxByTimeLoop eval_time_interval o remaining t acc =
        acc ++ (List.range remaining).map (fun (k : ℕ) =>
          o.GetBoundingBox (o.GetPointAtTime (((t + k : ℕ) : ℚ) * eval_time_interval))) := by
  intro remaining
  induction remaining with
  | zero => intro t acc; simp [boxByTimeLoop]
  | succ r ih =>
    intro t acc
    simp only [boxByTimeLoop]
    rw [ih, List.range_succ_eq_map, List.map_cons, List.map_map, List.append_assoc]
    congr 1
    simp only [List.singleton_append, Nat.add_zero]
    congr 1
    apply List.map_congr_left
    intro k _
    simp only [Function.comp]
    have : t + 1 + k = t + Nat.succ k := by omega
    rw [this]

theorem boxByTimeLoop_footprint (eval_time_interval : ℚ) (o : Obstacle) (n : ℕ) :
    boxByTimeLoop eval_time_interval o (n + 1) 0 [] = footprint eval_time_interval n o := by
  rw [boxByTimeLoop_eq]
  simp [footprint]

theorem footprint_length (eval_time_interval : ℚ) (o : Obstacle) (n : ℕ) :
    (footprint eval_time_interval n o).length = n + 1 := by
  simp [footprint]

theorem footprint_lookup (eval_time_interval : ℚ) (o : Obstacle) (n t : ℕ) (ht : t ≤ n) :
    (footprint eval_time_interval n o).get? t =
      some (o.GetBoundingBox (o.GetPointAtTime ((t : ℚ) * eval_time_interval))) := by
  unfold footprint
  rw [List.get?_eq_getElem?, List.getElem?_map, List.getElem?_range (by omega)]
  rfl

theorem retained_cons (o : PathObstacle) (rest : List PathObstacle) :
    retained (o :: rest) =
      if o.IsIgnore = false ∧ o.obstacle.IsVirtual = false then o :: retained rest
      else retained rest := by
  unfold retained
  cases h1 : o.IsIgnore <;> cases h2 : o.obstacle.IsVirtual <;> simp [List.filter_cons, h1, h2]

theorem retained_append (l1 l2 : List PathObstacle) :
    retained (l1 ++ l2) = retained l1 ++ retained l2 := by
  simp [retained]

/-- The obstacle loop of the constructor: it diverges exactly when the sample count is
`2^32 - 1` and some obstacle is retained; otherwise it appends the footprint of every
retained obstacle, in input order. -/
theorem obstacleLoop_eq (eval_time_interval : ℚ) (n : ℕ) :
    ∀ (obstacles : List PathObstacle) (acc : List (List Box2d)),
      obstacleLoop eval_time_interval n obstacles acc =
        if n = 2 ^ 32 - 1 ∧ (retained obstacles).isEmpty = false then
          Except.error ConstructFault.box_loop_diverges
        else Except.ok (acc ++ (retained obstacles).map
          (fun o => footprint eval_time_interval n o.obstacle)) := by
  intro obstacles
  induction obstacles with
  | nil => intro acc; simp [obstacleLoop, retained]
  | cons o rest ih =>
    intro acc
    rw [retained_cons]
    cases h1 : o.IsIgnore with
    | true => simp [obstacleLoop, h1, ih]
    | false =>
      cases h2 : o.obstacle.IsVirtual with
      | true => simp [obstacleLoop, h1, h2, ih]
      | false =>
        by_cases hn : n = 4294967295
        · simp [obstacleLoop, h1, h2, hn]
        · simp [obstacleLoop, h1, h2, hn, ih, boxByTimeLoop_footprint]

/-! ### Rounding to the nearest double -/

theorem roundHalfEven_of_near (y : ℚ) (m : ℤ) (h : |y - m| < 1 / 2) : roundHalfEven y = m := by
  rw [abs_lt] at h
  unfold roundHalfEven
  by_cases hm : (m : ℚ) ≤ y
  · have hf : ⌊y⌋ = m := Int.floor_eq_iff.2 ⟨hm, by linarith⟩
    rw [hf, if_pos (by linarith)]
  · have hf : ⌊y⌋ = m - 1 :=
      Int.floor_eq_iff.2 ⟨by push_cast; linarith, by push_cast; linarith⟩
    rw [hf, if_neg (by push_cast; linarith), if_pos (by push_cast; linarith)]
    ring

theorem roundHalfEven_of_tie (y : ℚ) (m : ℤ) (h : y = m + 1 / 2) :
    roundHalfEven y = if m % 2 = 0 then m else m + 1 := by
  have hf : ⌊y⌋ = m := Int.floor_eq_iff.2 ⟨by linarith, by linarith⟩
  unfold roundHalfEven
  rw [hf, if_neg (by linarith), if_neg (by linarith)]

theorem roundHalfEven_nonneg (y : ℚ) (hy : 0 ≤ y) : 0 ≤ roundHalfEven y := by
  have hf : 0 ≤ ⌊y⌋ := Int.floor_nonneg.2 hy
  unfold roundHalfEven
  split_ifs <;> omega

theorem int_log_two_eq (x : ℚ) (e : ℤ) (h1 : (2 : ℚ) ^ e ≤ x) (h2 : x < (2 : ℚ) ^ (e + 1)) :
    Int.log 2 x = e := by
  have hx : 0 < x := lt_of_lt_of_le (by positivity) h1
  have a : e ≤ Int.log 2 x :=
    (Int.zpow_le_iff_le_log (by norm_num) hx).1 (by exact_mod_cast h1)
  have b : Int.log 2 x < e + 1 :=
    (Int.lt_zpow_iff_log_lt (by norm_num) hx).1 (by exact_mod_cast h2)
  omega

theorem roundDouble_zero : roundDouble 0 = 0 := by simp [roundDouble]

theorem roundDouble_nonneg (x : ℚ) (hx : 0 ≤ x) : 0 ≤ roundDouble x := by
  unfold roundDouble
  split_ifs with h0
  · exact le_refl 0
  · have hpos : (0 : ℚ) < 2 ^ (Int.log 2 |x| - 52) := by positivity
    have := roundHalfEven_nonneg (x / 2 ^ (Int.log 2 |x| - 52)) (div_nonneg hx (le_of_lt hpos))
    have hc : (0 : ℚ) ≤ (roundHalfEven (x / 2 ^ (Int.log 2 |x| - 52)) : ℚ) := by
      exact_mod_cast this
    exact mul_nonneg hc (le_of_lt hpos)

/-- A value in the binade `[2^e, 2^(e+1))` rounds to the multiple `m * 2^(e-52)` of the
unit in the last place that is less than half a unit away. -/
theorem roundDouble_of_near (x : ℚ) (e m : ℤ) (h1 : (2 : ℚ) ^ e ≤ |x|)
    (h2 : |x| < (2 : ℚ) ^ (e + 1)) (hm : |x / 2 ^ (e - 52) - m| < 1 / 2) :
    roundDouble x = (m : ℚ) * 2 ^ (e - 52) := by
  have hx : x ≠ 0 := by
    intro h
    rw [h, abs_zero] at h1
    have : (0 : ℚ) < 2 ^ e := by positivity
    linarith
  unfold roundDouble
  rw [if_neg hx, int_log_two_eq |x| e h1 h2, roundHalfEven_of_near _ m hm]

/-- A value halfway between two multiples of the unit in the last place rounds to the
even one. -/
theorem roundDouble_of_tie (x : ℚ) (e m : ℤ) (h1 : (2 : ℚ) ^ e ≤ |x|)
    (h2 : |x| < (2 : ℚ) ^ (e + 1)) (hm : x / 2 ^ (e - 52) = m + 1 / 2) :
    roundDouble x = ((if m % 2 = 0 then m else m + 1 : ℤ) : ℚ) * 2 ^ (e - 52) := by
  have hx : x ≠ 0 := by
    intro h
    rw [h, abs_zero] at h1
    have : (0 : ℚ) < 2 ^ e := by positivity
    linarith
  unfold roundDouble
  rw [if_neg hx, int_log_two_eq |x| e h1 h2, roundHalfEven_of_tie _ m hm]

theorem roundDouble_three : roundDouble 3 = 3 := by
  rw [roundDouble_of_near 3 1 6755399441055744 (by norm_num) (by norm_num) (by norm_num)]
  norm_num

/-- The double quotient `5.0 / 0.1` is `50`, although the exact quotient of the two
doubles lies below `50`. -/
theorem fdiv_five_tenth : fdiv 5 doubleTenth = 50 := by
  unfold fdiv doubleTenth
  rw [roundDouble_of_near _ 5 7036874417766400 (by norm_num [abs_of_pos])
    (by norm_num [abs_of_pos]) (by norm_num [abs_lt])]
  norm_num

/-! ### The sample count -/

theorem castTimeStamps_lt (total_time eval_time_interval : ℚ) :
    castTimeStamps total_time eval_time_interval < 2 ^ 32 := by
  have hlt := Int.emod_lt_of_pos ⌊fdiv total_time eval_time_interval⌋
    (show (0 : ℤ) < 2 ^ 32 by norm_num)
  have hge := Int.emod_nonneg ⌊fdiv total_time eval_time_interval⌋
    (show (2 : ℤ) ^ 32 ≠ 0 by norm_num)
  unfold castTimeStamps
  simp only []
  split_ifs
  · norm_num
  · omega
  · norm_num

/-- Within the range of `uint32_t` the stored count is the floor of the double quotient. -/
theorem castTimeStamps_of_inRange (total_time eval_time_interval : ℚ)
    (hint : eval_time_interval ≠ 0)
    (h0 : 0 ≤ ⌊fdiv total_time eval_time_interval⌋)
    (h1 : ⌊fdiv total_time eval_time_interval⌋ < 2 ^ 32) :
    (castTimeStamps total_time eval_time_interval : ℤ) = ⌊fdiv total_time eval_time_interval⌋ := by
  unfold castTimeStamps
  rw [if_neg hint]
  simp only []
  rw [if_pos ⟨by omega, by omega⟩, Int.emod_eq_of_lt h0 h1]
  exact Int.toNat_of_nonneg h0

theorem castTimeStamps_zero_interval (total_time : ℚ) : castTimeStamps total_time 0 = 0 := by
  simp [castTimeStamps]

/-- What the constructor returns: an evaluator unless the box loop diverges; its members
are the arguments, the sample count, and the footprints of the retained obstacles. -/
theorem construct_eq_ok (config : DpPolyPathConfig) (reference_line : ReferenceLine)
    (obstacles : List PathObstacle) (vehicle_param : VehicleParam)
    (heuristic_speed_data : SpeedData) (init_sl_point : SLPoint)
    (FLAGS_prediction_total_time : ℚ) (tc : TrajectoryCost) :
    TrajectoryCost.construct config reference_line obstacles vehicle_param
        heuristic_speed_data init_sl_point FLAGS_prediction_total_time = .ok tc ↔
      ∃ n : ℕ,
        castTimeStamps (min heuristic_speed_data.TotalTime FLAGS_prediction_total_time)
          config.eval_time_interval = n ∧
        (n = 2 ^ 32 - 1 → retained obstacles = []) ∧
        tc = { config_ := config
               reference_line_ := reference_line
               vehicle_param_ := vehicle_param
               heuristic_speed_data_ := heuristic_speed_data
               init_sl_point_ := init_sl_point
               num_of_time_stamps_ := n
               obstacle_boxes_ := (retained obstacles).map
                 (fun o => footprint config.eval_time_interval n o.obstacle) } := by
  unfold TrajectoryCost.construct
  simp only []
  generalize castTimeStamps (min heuristic_speed_data.TotalTime FLAGS_prediction_total_time)
      config.eval_time_interval = n
  simp only [obstacleLoop_eq, List.nil_append, exists_eq_left']
  by_cases hd : n = 2 ^ 32 - 1 ∧ (retained obstacles).isEmpty = false
  · rw [if_pos hd]
    constructor
    · intro h; exact absurd h (by simp)
    · intro h
      have := h.1 hd.1
      rw [this] at hd
      simp at hd
  · rw [if_neg hd]
    constructor
    · intro h
      refine ⟨fun hn => ?_, ?_⟩
      · cases hr : retained obstacles with
        | nil => rfl
        | cons a l => exact absurd ⟨hn, by simp [hr]⟩ hd
      · exact (Except.ok.inj h).symm
    · intro h
      rw [h.2]

/-- The sample count of the concrete scenario: `⌊3 / 1⌋ = 3`. -/
theorem demo_castTimeStamps : castTimeStamps (min 3 5) 1 = 3 := by
  have h : fdiv (min 3 5) 1 = 3 := by
    unfold fdiv
    norm_num [roundDouble_three]
  have := castTimeStamps_of_inRange (min 3 5) 1 (by norm_num) (by rw [h]; norm_num)
    (by rw [h]; norm_num)
  rw [h] at this
  have h3 : ⌊(3 : ℚ)⌋ = 3 := by norm_num
  rw [h3] at this
  exact_mod_cast this

/-- The constructor on the concrete scenario returns the evaluator `demoCost`. -/
theorem demo_construct :
    TrajectoryCost.construct demoConfig demoLine demoObstacles { length := 4, width := 2 }
      demoSpeed { s := 0, l := 0 } 5 = .ok demoCost := by
  rw [construct_eq_ok]
  refine ⟨3, demo_castTimeStamps, ?_, ?_⟩
  · intro h; norm_num at h
  · simp [demoCost, demoObstacles, retained, demoPathObstacle, demoObstacle, footprint,
      demoBox, List.range_succ]

/-! ## Footprint cache -/

/-- C6. Sample-count consistency, for `eval_time_interval > 0`, the quotient being the
double quotient the code computes: every cached sequence of an evaluator the constructor
returns has length `N + 1`, `N` being the stored number of time stamps, so all sequences
have the same length; `N = ⌊min(TotalTime, prediction cap) / eval_time_interval⌋` whenever
that floor is a `uint32_t` value; and the constructor does return such an evaluator
whenever the floor lies in `[0, 2^32 - 1)`. -/
theorem sample_count_consistency (config : DpPolyPathConfig) (reference_line : ReferenceLine)
    (obstacles : List PathObstacle) (vehicle_param : VehicleParam)
    (heuristic_speed_data : SpeedData) (init_sl_point : SLPoint)
    (FLAGS_prediction_total_time : ℚ) (hint : 0 < config.eval_time_interval) :
    (∀ tc, TrajectoryCost.construct config reference_line obstacles vehicle_param
        heuristic_speed_data init_sl_point FLAGS_prediction_total_time = .ok tc →
      (∀ seq ∈ tc.obstacle_boxes_, seq.length = tc.num_of_time_stamps_ + 1) ∧
      (0 ≤ ⌊fdiv (min heuristic_speed_data.TotalTime FLAGS_prediction_total_time)
          config.eval_time_interval⌋ →
        ⌊fdiv (min heuristic_speed_data.TotalTime FLAGS_prediction_total_time)
          config.eval_time_interval⌋ < 2 ^ 32 →
        (tc.num_of_time_stamps_ : ℤ) =
          ⌊fdiv (min heuristic_speed_data.TotalTime FLAGS_prediction_total_time)
            config.eval_time_interval⌋)) ∧
    (0 ≤ min heuristic_speed_data.TotalTime FLAGS_prediction_total_time →
      0 ≤ ⌊fdiv (min heuristic_speed_data.TotalTime FLAGS_prediction_total_time)
          config.eval_time_interval⌋) ∧
    (0 ≤ ⌊fdiv (min heuristic_speed_data.TotalTime FLAGS_prediction_total_time)
          config.eval_time_interval⌋ →
      ⌊fdiv (min heuristic_speed_data.TotalTime FLAGS_prediction_total_time)
          config.eval_time_interval⌋ < 2 ^ 32 - 1 →
      ∃ tc, TrajectoryCost.construct config reference_line obstacles vehicle_param
          heuristic_speed_data init_sl_point FLAGS_prediction_total_time = .ok tc ∧
        (tc.num_of_time_stamps_ : ℤ) =
          ⌊fdiv (min heuristic_speed_data.TotalTime FLAGS_prediction_total_time)
            config.eval_time_interval⌋ ∧
        ∀ seq ∈ tc.obstacle_boxes_, seq.length = tc.num_of_time_stamps_ + 1) := by
  have hlen : ∀ tc, TrajectoryCost.construct config reference_line obstacles vehicle_param
        heuristic_speed_data init_sl_point FLAGS_prediction_total_time = .ok tc →
      (∀ seq ∈ tc.obstacle_boxes_, seq.length = tc.num_of_time_stamps_ + 1) ∧
      (0 ≤ ⌊fdiv (min heuristic_speed_data.TotalTime FLAGS_prediction_total_time)
          config.eval_time_interval⌋ →
        ⌊fdiv (min heuristic_speed_data.TotalTime FLAGS_prediction_total_time)
          config.eval_time_interval⌋ < 2 ^ 32 →
        (tc.num_of_time_stamps_ : ℤ) =
          ⌊fdiv (min heuristic_speed_data.TotalTime FLAGS_prediction_total_time)
            config.eval_time_interval⌋) := by
    intro tc h
    obtain ⟨n, hn, _, rfl⟩ := (construct_eq_ok _ _ _ _ _ _ _ _).1 h
    constructor
    · intro seq hseq
      obtain ⟨o, _, rfl⟩ := List.mem_map.1 hseq
      exact footprint_length _ _ _
    · intro h0 h1
      rw [← hn]
      exact castTimeStamps_of_inRange _ _ (ne_of_gt hint) h0 h1
  refine ⟨hlen, ?_, ?_⟩
  · intro htotal
    apply Int.floor_nonneg.2
    exact roundDouble_nonneg _ (div_nonneg htotal (le_of_lt hint))
  · intro h0 h1
    have hcast := castTimeStamps_of_inRange
      (min heuristic_speed_data.TotalTime FLAGS_prediction_total_time)
      config.eval_time_interval (ne_of_gt hint) h0 (by omega)
    obtain ⟨tc, htc⟩ : ∃ tc, TrajectoryCost.construct config reference_line obstacles
        vehicle_param heuristic_speed_data init_sl_point FLAGS_prediction_total_time =
          .ok tc :=
      ⟨_, (construct_eq_ok _ _ _ _ _ _ _ _).2 ⟨_, rfl, fun h => by omega, rfl⟩⟩
    exact ⟨tc, htc, (hlen tc htc).2 h0 (by omega), (hlen tc htc).1⟩

/-- C6 at a horizon of `5.0` and `eval_time_interval = 0.1`: the double quotient is `50`
although the exact quotient of the two doubles has floor `49`; the constructor stores
`N = 50` and every cached sequence has `51` boxes. -/
theorem sample_count_consistency_witness :
    ⌊fdiv 5 doubleTenth⌋ = 50 ∧ ⌊(5 : ℚ) / doubleTenth⌋ = 49 ∧
    ∃ tc, TrajectoryCost.construct tenthConfig demoLine demoObstacles
        { length := 4, width := 2 } { demoSpeed with TotalTime := 8 } { s := 0, l := 0 } 5 =
          .ok tc ∧
      (tc.num_of_time_stamps_ : ℤ) = ⌊fdiv (min 8 5) tenthConfig.eval_time_interval⌋ ∧
      ∀ seq ∈ tc.obstacle_boxes_, seq.length = tc.num_of_time_stamps_ + 1 := by
  have hq : ⌊fdiv (min 8 5) tenthConfig.eval_time_interval⌋ = 50 := by
    have : min (8 : ℚ) 5 = 5 := by norm_num
    rw [this]
    show ⌊fdiv 5 doubleTenth⌋ = 50
    rw [fdiv_five_tenth]
    norm_num
  refine ⟨by rw [fdiv_five_tenth]; norm_num, ?_, ?_⟩
  · rw [Int.floor_eq_iff]
    norm_num [doubleTenth]
  · exact (sample_count_consistency tenthConfig demoLine demoObstacles
      { length := 4, width := 2 } { demoSpeed with TotalTime := 8 } { s := 0, l := 0 } 5
      (by norm_num [tenthConfig, doubleTenth])).2.2 (by rw [hq]; norm_num)
      (by rw [hq]; norm_num)

/-- C7. Cache contents: the cache of a constructed evaluator is, in input order, one
footprint sequence per retained obstacle, the retained obstacles being exactly the
input obstacles that are neither flagged ignorable nor virtual; and the box at index
`t ≤ N` of the sequence of an obstacle is its bounding box at its predicted pose at
time `t * eval_time_interval`. -/
theorem cache_contents (config : DpPolyPathConfig) (reference_line : ReferenceLine)
    (obstacles : List PathObstacle) (vehicle_param : VehicleParam)
    (heuristic_speed_data : SpeedData) (init_sl_point : SLPoint)
    (FLAGS_prediction_total_time : ℚ) (tc : TrajectoryCost)
    (h : TrajectoryCost.construct config reference_line obstacles vehicle_param
        heuristic_speed_data init_sl_point FLAGS_prediction_total_time = .ok tc) :
    tc.obstacle_boxes_ = (retained obstacles).map
      (fun o => footprint config.eval_time_interval tc.num_of_time_stamps_ o.obstacle) ∧
    List.Sublist (retained obstacles) obstacles ∧
    (∀ o, o ∈ retained obstacles ↔
      o ∈ obstacles ∧ o.IsIgnore = false ∧ o.obstacle.IsVirtual = false) ∧
    (∀ (i : ℕ) (o : PathObstacle), (retained obstacles).get? i = some o →
      ∃ seq, tc.obstacle_boxes_.get? i = some seq ∧
        seq.length = tc.num_of_time_stamps_ + 1 ∧
        ∀ t, t ≤ tc.num_of_time_stamps_ →
          seq.get? t = some (o.obstacle.GetBoundingBox
            (o.obstacle.GetPointAtTime ((t : ℚ) * config.eval_time_interval)))) := by
  obtain ⟨n, _, _, rfl⟩ := (construct_eq_ok _ _ _ _ _ _ _ _).1 h
  refine ⟨rfl, List.filter_sublist _, ?_, ?_⟩
  · intro o
    simp [retained, List.mem_filter]
  · intro i o hi
    refine ⟨footprint config.eval_time_interval n o.obstacle, ?_, footprint_length _ _ _,
      fun t ht => footprint_lookup _ _ _ _ ht⟩
    simp only [List.get?_eq_getElem?, List.getElem?_map] at hi ⊢
    rw [hi]
    rfl

/-- C7 at the concrete scenario: of the three input obstacles only the second is kept,
and its cached sequence holds its box at the four sample times. -/
theorem cache_contents_witness :
    demoCost.obstacle_boxes_ = (retained demoObstacles).map
      (fun o => footprint demoConfig.eval_time_interval demoCost.num_of_time_stamps_
        o.obstacle) ∧
    demoCost.obstacle_boxes_ = [[demoBox, demoBox, demoBox, demoBox]] :=
  ⟨(cache_contents demoConfig demoLine demoObstacles { length := 4, width := 2 }
    demoSpeed { s := 0, l := 0 } 5 demoCost demo_construct).1, rfl⟩

/-! ## Removing an obstacle -/

/-- The evaluated samples do not depend on the footprint cache. -/
theorem evaluatedSamples_congr (tc tc' : TrajectoryCost) (start_s end_s : ℚ)
    (hspeed : tc'.heuristic_speed_data_ = tc.heuristic_speed_data_)
    (hinit : tc'.init_sl_point_ = tc.init_sl_point_) (hconfig : tc'.config_ = tc.config_) :
    ∀ (remaining index : ℕ) (ts : ℚ),
      evaluatedSamples tc' start_s end_s remaining index ts =
        evaluatedSamples tc start_s end_s remaining index ts := by
  intro remaining
  induction remaining with
  | zero => intro index ts; rfl
  | succ r ih =>
    intro index ts
    simp only [evaluatedSamples, hspeed, hinit, hconfig, ih]

/-- With a non-negative collision cost, dropping trajectories from the cache does not
raise the sum added at a time index. -/
theorem boxSum_sublist (config : DpPolyPathConfig) (geo : Geometry) (ego_box : Box2d)
    (index : ℕ) (hc : 0 ≤ config.obstacle_collision_cost) (small large : List (List Box2d))
    (hsub : List.Sublist small large) :
    boxSum config geo ego_box index small ≤ boxSum config geo ego_box index large := by
  unfold boxSum
  apply List.Sublist.sum_le_sum (hsub.map _)
  intro x hx
  obtain ⟨traj, _, rfl⟩ := List.mem_map.1 hx
  cases traj.get? index with
  | none => exact le_refl 0
  | some b => exact pairContribution_nonneg config hc _

/-- Two evaluators that differ only in their caches, the cache of the second being a
sublist of the cache of the first and the first covering every index: both obstacle
costs are returned and the second is not larger. -/
theorem CalculateObstacleCost_sublist (tc tc' : TrajectoryCost) (geo : Geometry)
    (curve : QuinticPolynomialCurve1d) (start_s end_s : ℚ)
    (hc : 0 ≤ tc.config_.obstacle_collision_cost)
    (hconfig : tc'.config_ = tc.config_)
    (hline : tc'.reference_line_ = tc.reference_line_)
    (hvehicle : tc'.vehicle_param_ = tc.vehicle_param_)
    (hspeed : tc'.heuristic_speed_data_ = tc.heuristic_speed_data_)
    (hinit : tc'.init_sl_point_ = tc.init_sl_point_)
    (hnum : tc'.num_of_time_stamps_ = tc.num_of_time_stamps_)
    (hsub : List.Sublist tc'.obstacle_boxes_ tc.obstacle_boxes_)
    (hlen : ∀ traj ∈ tc.obstacle_boxes_, tc.num_of_time_stamps_ ≤ traj.length) :
    ∃ v v', tc.CalculateObstacleCost geo curve start_s end_s = some v ∧
      tc'.CalculateObstacleCost geo curve start_s end_s = some v' ∧ v' ≤ v := by
  have h1 := timeLoop_inRange tc geo curve start_s end_s tc.num_of_time_stamps_ 0 0 0
    (fun t ht => by simpa using hlen t ht)
  have h2 := timeLoop_inRange tc' geo curve start_s end_s tc'.num_of_time_stamps_ 0 0 0
    (fun t ht => by
      rw [hnum]
      simpa using hlen t (hsub.subset ht))
  refine ⟨_, _, h1, h2, ?_⟩
  rw [hnum, evaluatedSamples_congr tc tc' start_s end_s hspeed hinit hconfig]
  apply add_le_add_left
  apply List.sum_le_sum
  intro sample _
  unfold sampleCost
  have hego : tc'.egoBox geo curve start_s sample.2 = tc.egoBox geo curve start_s sample.2 := by
    unfold TrajectoryCost.egoBox
    rw [hline, hvehicle, hinit]
  rw [hego, hconfig]
  exact boxSum_sublist _ _ _ _ hc _ _ hsub

/-- C5. Monotonic obstacle removal, with a non-negative collision cost: if the
constructor returns an evaluator for the list `before ++ o :: after`, it also returns
one for the list with `o` removed and one for the list with `o` flagged ignorable, all
three obstacle costs are returned, and the latter two are `≤` the original one. -/
theorem obstacle_removal_monotone (config : DpPolyPathConfig) (reference_line : ReferenceLine)
    (before after : List PathObstacle) (o : PathObstacle) (vehicle_param : VehicleParam)
    (heuristic_speed_data : SpeedData) (init_sl_point : SLPoint)
    (FLAGS_prediction_total_time : ℚ) (geo : Geometry) (curve : QuinticPolynomialCurve1d)
    (start_s end_s : ℚ) (tc : TrajectoryCost)
    (hc : 0 ≤ config.obstacle_collision_cost)
    (h : TrajectoryCost.construct config reference_line (before ++ o :: after) vehicle_param
        heuristic_speed_data init_sl_point FLAGS_prediction_total_time = .ok tc) :
    ∃ tcRemoved tcIgnored v vRemoved vIgnored,
      TrajectoryCost.construct config reference_line (before ++ after) vehicle_param
        heuristic_speed_data init_sl_point FLAGS_prediction_total_time = .ok tcRemoved ∧
      TrajectoryCost.construct config reference_line
        (before ++ { o with IsIgnore := true } :: after) vehicle_param
        heuristic_speed_data init_sl_point FLAGS_prediction_total_time = .ok tcIgnored ∧
      tc.CalculateObstacleCost geo curve start_s end_s = some v ∧
      tcRemoved.CalculateObstacleCost geo curve start_s end_s = some vRemoved ∧
      tcIgnored.CalculateObstacleCost geo curve start_s end_s = some vIgnored ∧
      vRemoved ≤ v ∧ vIgnored ≤ v := by
  obtain ⟨n, hn, hdiv, rfl⟩ := (construct_eq_ok _ _ _ _ _ _ _ _).1 h
  have hign : retained (before ++ { o with IsIgnore := true } :: after) =
      retained (before ++ after) := by
    rw [retained_append, retained_append, retained_cons]
    simp
  have hsub : List.Sublist (retained (before ++ after)) (retained (before ++ o :: after)) := by
    unfold retained
    exact List.Sublist.filter _
      (List.Sublist.append (List.Sublist.refl _) (List.sublist_cons_self _ _))
  have hdiv' : n = 2 ^ 32 - 1 → retained (before ++ after) = [] := by
    intro hn'
    have := hdiv hn'
    rw [this] at hsub
    exact List.sublist_nil.1 hsub
  have hctor := (construct_eq_ok config reference_line (before ++ after) vehicle_param
    heuristic_speed_data init_sl_point FLAGS_prediction_total_time _).2 ⟨n, hn, hdiv', rfl⟩
  have hctorIgn := (construct_eq_ok config reference_line
    (before ++ { o with IsIgnore := true } :: after) vehicle_param
    heuristic_speed_data init_sl_point FLAGS_prediction_total_time _).2
    ⟨n, hn, by rw [hign]; exact hdiv', rfl⟩
  rw [hign] at hctorIgn
  obtain ⟨v, v', hv, hv', hle⟩ := CalculateObstacleCost_sublist
    { config_ := config, reference_line_ := reference_line
      vehicle_param_ := vehicle_param, heuristic_speed_data_ := heuristic_speed_data
      init_sl_point_ := init_sl_point, num_of_time_stamps_ := n
      obstacle_boxes_ := (retained (before ++ o :: after)).map
        (fun o => footprint config.eval_time_interval n o.obstacle) }
    { config_ := config, reference_line_ := reference_line
      vehicle_param_ := vehicle_param, heuristic_speed_data_ := heuristic_speed_data
      init_sl_point_ := init_sl_point, num_of_time_stamps_ := n
      obstacle_boxes_ := (retained (before ++ after)).map
        (fun o => footprint config.eval_time_interval n o.obstacle) }
    geo curve start_s end_s
    hc rfl rfl rfl rfl rfl rfl (hsub.map _)
    (by
      intro traj ht
      obtain ⟨x, _, rfl⟩ := List.mem_map.1 ht
      rw [footprint_length]
      exact Nat.le_succ n)
  exact ⟨_, _, v, v', v', hctor, hctorIgn, hv, hv', hv', hle, hle⟩

/-- C5 at the concrete scenario, removing (or flagging) the only retained obstacle. -/
theorem obstacle_removal_monotone_witness :
    ∃ tcRemoved tcIgnored v vRemoved vIgnored,
      TrajectoryCost.construct demoConfig demoLine
        ([{ IsIgnore := true, obstacle := demoObstacle }] ++
          [{ IsIgnore := false, obstacle := { demoObstacle with IsVirtual := true } }])
        { length := 4, width := 2 } demoSpeed { s := 0, l := 0 } 5 = .ok tcRemoved ∧
      TrajectoryCost.construct demoConfig demoLine
        ([{ IsIgnore := true, obstacle := demoObstacle }] ++
          { demoPathObstacle with IsIgnore := true } ::
          [{ IsIgnore := false, obstacle := { demoObstacle with IsVirtual := true } }])
        { length := 4, width := 2 } demoSpeed { s := 0, l := 0 } 5 = .ok tcIgnored ∧
      demoCost.CalculateObstacleCost demoGeo demoCurve 0 10 = some v ∧
      tcRemoved.CalculateObstacleCost demoGeo demoCurve 0 10 = some vRemoved ∧
      tcIgnored.CalculateObstacleCost demoGeo demoCurve 0 10 = some vIgnored ∧
      vRemoved ≤ v ∧ vIgnored ≤ v :=
  obstacle_removal_monotone demoConfig demoLine
    [{ IsIgnore := true, obstacle := demoObstacle }]
    [{ IsIgnore := false, obstacle := { demoObstacle with IsVirtual := true } }]
    demoPathObstacle { length := 4, width := 2 } demoSpeed { s := 0, l := 0 } 5
    demoGeo demoCurve 0 10 demoCost (by norm_num [demoConfig]) demo_construct

/-! ## Degenerate ranges and configurations -/

/-- The sample count for a zero horizon and `eval_time_interval = -1`: `⌊0 / -1⌋ = 0`. -/
theorem idle_castTimeStamps : castTimeStamps (min 0 5) (-1) = 0 := by
  have h : fdiv (min 0 5) (-1) = 0 := by
    unfold fdiv
    norm_num [roundDouble_zero]
  have := castTimeStamps_of_inRange (min 0 5) (-1) (by norm_num) (by rw [h]; norm_num)
    (by rw [h]; norm_num)
  rw [h] at this
  have h0 : ⌊(0 : ℚ)⌋ = 0 := by norm_num
  rw [h0] at this
  exact_mod_cast this

/-- C12, as stated, fails: the constructor returns an evaluator for a configuration
with `path_resolution = 0`, and for one with `eval_time_interval = -1` when the speed
profile lasts zero seconds (`⌊0 / -1⌋ = 0` time stamps). -/
theorem configuration_rejection_counterexample :
    zeroResolutionConfig.path_resolution ≤ 0 ∧
    TrajectoryCost.construct zeroResolutionConfig demoLine demoObstacles
      { length := 4, width := 2 } demoSpeed { s := 0, l := 0 } 5 =
        .ok { demoCost with config_ := zeroResolutionConfig } ∧
    negativeIntervalConfig.eval_time_interval ≤ 0 ∧
    TrajectoryCost.construct negativeIntervalConfig demoLine demoObstacles
      { length := 4, width := 2 } idleSpeed { s := 0, l := 0 } 5 =
        .ok { config_ := negativeIntervalConfig
              reference_line_ := demoLine
              vehicle_param_ := { length := 4, width := 2 }
              heuristic_speed_data_ := idleSpeed
              init_sl_point_ := { s := 0, l := 0 }
              num_of_time_stamps_ := 0
              obstacle_boxes_ := [[demoBox]] } := by
  refine ⟨by norm_num [zeroResolutionConfig], ?_, by norm_num [negativeIntervalConfig], ?_⟩
  · rw [construct_eq_ok]
    refine ⟨3, demo_castTimeStamps, ?_, ?_⟩
    · intro h; norm_num at h
    · simp [demoCost, demoObstacles, retained, demoPathObstacle, demoObstacle, footprint,
        demoBox, List.range_succ, zeroResolutionConfig, demoConfig]
  · rw [construct_eq_ok]
    refine ⟨0, idle_castTimeStamps, ?_, ?_⟩
    · intro h; norm_num at h
    · simp [demoObstacles, retained, demoPathObstacle, demoObstacle, footprint,
        demoBox, negativeIntervalConfig, demoConfig]

/-- C12, amended. The constructor checks nothing and never reads `path_resolution`.
Whatever the configuration, whenever the cache loop ends (the stored sample count is not
`2^32 - 1`, or no obstacle is retained) it returns an evaluator, which stores the
configuration unchanged; whether it returns one does not depend on `path_resolution`;
and with `eval_time_interval = 0` it returns an evaluator with `0` time stamps. -/
theorem construct_accepts (config : DpPolyPathConfig) (reference_line : ReferenceLine)
    (obstacles : List PathObstacle) (vehicle_param : VehicleParam)
    (heuristic_speed_data : SpeedData) (init_sl_point : SLPoint)
    (FLAGS_prediction_total_time : ℚ) :
    ((castTimeStamps (min heuristic_speed_data.TotalTime FLAGS_prediction_total_time)
          config.eval_time_interval = 2 ^ 32 - 1 → retained obstacles = []) →
      ∃ tc, TrajectoryCost.construct config reference_line obstacles vehicle_param
          heuristic_speed_data init_sl_point FLAGS_prediction_total_time = .ok tc ∧
        tc.config_ = config ∧
        tc.num_of_time_stamps_ =
          castTimeStamps (min heuristic_speed_data.TotalTime FLAGS_prediction_total_time)
            config.eval_time_interval) ∧
    (∀ tc, TrajectoryCost.construct config reference_line obstacles vehicle_param
        heuristic_speed_data init_sl_point FLAGS_prediction_total_time = .ok tc →
      tc.config_ = config) ∧
    (∀ r : ℚ,
      (∃ tc, TrajectoryCost.construct { config with path_resolution := r } reference_line
        obstacles vehicle_param heuristic_speed_data init_sl_point
        FLAGS_prediction_total_time = .ok tc) ↔
      (∃ tc, TrajectoryCost.construct config reference_line obstacles vehicle_param
        heuristic_speed_data init_sl_point FLAGS_prediction_total_time = .ok tc)) ∧
    (config.eval_time_interval = 0 →
      ∃ tc, TrajectoryCost.construct config reference_line obstacles vehicle_param
          heuristic_speed_data init_sl_point FLAGS_prediction_total_time = .ok tc ∧
        tc.num_of_time_stamps_ = 0) := by
  have key : ∀ (cfg : DpPolyPathConfig),
      (∃ tc, TrajectoryCost.construct cfg reference_line obstacles vehicle_param
        heuristic_speed_data init_sl_point FLAGS_prediction_total_time = .ok tc) ↔
      (castTimeStamps (min heuristic_speed_data.TotalTime FLAGS_prediction_total_time)
          cfg.eval_time_interval = 2 ^ 32 - 1 → retained obstacles = []) := by
    intro cfg
    constructor
    · rintro ⟨tc, h⟩
      obtain ⟨n, hn, hdiv, _⟩ := (construct_eq_ok _ _ _ _ _ _ _ _).1 h
      rw [hn]
      exact hdiv
    · intro hdiv
      exact ⟨_, (construct_eq_ok _ _ _ _ _ _ _ _).2 ⟨_, rfl, hdiv, rfl⟩⟩
  have hret : (castTimeStamps (min heuristic_speed_data.TotalTime FLAGS_prediction_total_time)
          config.eval_time_interval = 2 ^ 32 - 1 → retained obstacles = []) →
      ∃ tc, TrajectoryCost.construct config reference_line obstacles vehicle_param
          heuristic_speed_data init_sl_point FLAGS_prediction_total_time = .ok tc ∧
        tc.config_ = config ∧
        tc.num_of_time_stamps_ =
          castTimeStamps (min heuristic_speed_data.TotalTime FLAGS_prediction_total_time)
            config.eval_time_interval :=
    fun hdiv => ⟨_, (construct_eq_ok _ _ _ _ _ _ _ _).2 ⟨_, rfl, hdiv, rfl⟩, rfl, rfl⟩
  refine ⟨hret, ?_, fun r => ?_, fun h0 => ?_⟩
  · intro tc h
    obtain ⟨n, _, _, rfl⟩ := (construct_eq_ok _ _ _ _ _ _ _ _).1 h
    rfl
  · rw [key, key config]
  · have hz : castTimeStamps (min heuristic_speed_data.TotalTime FLAGS_prediction_total_time)
        config.eval_time_interval = 0 := by
      rw [h0]
      exact castTimeStamps_zero_interval _
    obtain ⟨tc, htc, _, hnum⟩ := hret (fun h => by rw [hz] at h; norm_num at h)
    exact ⟨tc, htc, by rw [hnum, hz]⟩

/-- C12 (amended) at the scenario with `path_resolution = 0`: an evaluator is returned. -/
theorem construct_accepts_witness :
    ∃ tc, TrajectoryCost.construct zeroResolutionConfig demoLine demoObstacles
      { length := 4, width := 2 } demoSpeed { s := 0, l := 0 } 5 = .ok tc :=
  ((construct_accepts demoConfig demoLine demoObstacles { length := 4, width := 2 }
    demoSpeed { s := 0, l := 0 } 5).2.2.1 0).2 ⟨demoCost, demo_construct⟩

/-! ## Path cost: reference sum, termination, dependence on the range -/

/-- The number of steps is the number of `k` with `k * path_resolution` inside the range. -/
theorem lt_pathSteps_iff (config : DpPolyPathConfig) (start_s end_s : ℚ)
    (hres : 0 < config.path_resolution) (k : ℕ) :
    k < pathSteps config start_s end_s ↔ (k : ℚ) * config.path_resolution < end_s - start_s := by
  constructor
  · intro hk
    have := pathSteps_inside config start_s end_s hres k hk
    linarith
  · intro hk
    by_contra hge
    have hle : pathSteps config start_s end_s ≤ k := not_lt.1 hge
    have hstop := pathSteps_stop config start_s end_s hres
    apply hstop
    have hcast : (pathSteps config start_s end_s : ℚ) ≤ (k : ℚ) := by exact_mod_cast hle
    have := mul_le_mul_of_nonneg_right hcast (le_of_lt hres)
    linarith

/-- While the guard holds along the first `k` states, `k` units of fuel are spent on
reaching the `k`-th state. -/
theorem pathLoop_iterate (config : DpPolyPathConfig) (curve : QuinticPolynomialCurve1d)
    (start_s end_s : ℚ) :
    ∀ (k fuel : ℕ) (state : ℚ × ℚ),
      (∀ j, j < k → ((pathBody config curve)^[j] state).2 < end_s - start_s) →
      pathLoop config curve start_s end_s (fuel + k) state.1 state.2 =
        pathLoop config curve start_s end_s fuel
          ((pathBody config curve)^[k] state).1 ((pathBody config curve)^[k] state).2 := by
  intro k
  induction k with
  | zero => intro fuel state _; rfl
  | succ k ih =>
    intro fuel state hguard
    have h0 : state.2 < end_s - start_s := hguard 0 (Nat.succ_pos k)
    have hstep : pathLoop config curve start_s end_s (fuel + (k + 1)) state.1 state.2 =
        pathLoop config curve start_s end_s (fuel + k) (pathBody config curve state).1
          (pathBody config curve state).2 := by
      have : fuel + (k + 1) = (fuel + k) + 1 := by omega
      rw [this, pathLoop_succ _ _ _ _ _ _ _ h0]
      simp only [pathBody, pathTerm, add_assoc]
    rw [hstep, ih fuel (pathBody config curve state)
      (fun j hj => by
        have := hguard (j + 1) (by omega)
        rwa [Function.iterate_succ_apply] at this)]
    rw [Function.iterate_succ_apply]

theorem pathState_snd (config : DpPolyPathConfig) (curve : QuinticPolynomialCurve1d) (k : ℕ) :
    (pathState config curve k).2 = (k : ℚ) * config.path_resolution := by
  unfold pathState
  induction k with
  | zero => simp
  | succ k ih =>
    rw [Function.iterate_succ_apply']
    simp only [pathBody, ih]
    push_cast
    ring

/-- While the guard holds at every one of the first `fuel + 1` offsets, the fuel runs out. -/
theorem pathLoop_none (config : DpPolyPathConfig) (curve : QuinticPolynomialCurve1d)
    (start_s end_s : ℚ) :
    ∀ (fuel : ℕ) (c s : ℚ),
      (∀ k, k ≤ fuel → s + (k : ℚ) * config.path_resolution < end_s - start_s) →
      pathLoop config curve start_s end_s fuel c s = none := by
  intro fuel
  induction fuel with
  | zero =>
    intro c s h
    exact pathLoop_zero _ _ _ _ _ _ (by simpa using h 0 (le_refl 0))
  | succ fuel ih =>
    intro c s h
    rw [pathLoop_succ _ _ _ _ _ _ _ (by simpa using h 0 (Nat.zero_le _))]
    apply ih
    intro k hk
    have := h (k + 1) (by omega)
    push_cast at this
    linarith

/-- C13, amended. Path cost reference definition in exact arithmetic (`path_s` and the
cost accumulated without rounding), for `path_resolution = r > 0`: with `n = pathSteps`,
every fuel of at least `n` returns the sum over `k = 0 .. n-1` of
`|curve(0, k*r)| * path_l_cost + |curve(1, k*r)| * path_dl_cost`, and this is the only
value ever returned; `k < n` exactly when `k*r < end_s - start_s`, so `n` counts those
`k`; `n = ⌈(end_s - start_s) / r⌉ ≥ 1` when `end_s > start_s` (offset 0 is sampled) and
`n = 0` otherwise; and the cost depends on the curve only at the offsets `k*r`, `k < n`,
all of which lie below `end_s - start_s`. -/
theorem CalculatePathCost_reference (tc : TrajectoryCost) (curve : QuinticPolynomialCurve1d)
    (start_s end_s : ℚ) (hres : 0 < tc.config_.path_resolution) :
    (∀ fuel, pathSteps tc.config_ start_s end_s ≤ fuel →
      tc.CalculatePathCost fuel curve start_s end_s =
        some (((List.range (pathSteps tc.config_ start_s end_s)).map (fun (k : ℕ) =>
          |curve.Evaluate 0 ((k : ℚ) * tc.config_.path_resolution)| * tc.config_.path_l_cost +
          |curve.Evaluate 1 ((k : ℚ) * tc.config_.path_resolution)| *
            tc.config_.path_dl_cost)).sum)) ∧
    (∀ fuel v, tc.CalculatePathCost fuel curve start_s end_s = some v →
      v = ((List.range (pathSteps tc.config_ start_s end_s)).map (fun (k : ℕ) =>
          |curve.Evaluate 0 ((k : ℚ) * tc.config_.path_resolution)| * tc.config_.path_l_cost +
          |curve.Evaluate 1 ((k : ℚ) * tc.config_.path_resolution)| *
            tc.config_.path_dl_cost)).sum) ∧
    (∀ k : ℕ, k < pathSteps tc.config_ start_s end_s ↔
      (k : ℚ) * tc.config_.path_resolution < end_s - start_s) ∧
    (start_s < end_s →
      (pathSteps tc.config_ start_s end_s : ℤ) =
        ⌈(end_s - start_s) / tc.config_.path_resolution⌉ ∧
      0 < pathSteps tc.config_ start_s end_s) ∧
    (end_s ≤ start_s → pathSteps tc.config_ start_s end_s = 0) ∧
    (∀ curve' : QuinticPolynomialCurve1d,
      (∀ k : ℕ, k < pathSteps tc.config_ start_s end_s →
        curve'.Evaluate 0 ((k : ℚ) * tc.config_.path_resolution) =
          curve.Evaluate 0 ((k : ℚ) * tc.config_.path_resolution) ∧
        curve'.Evaluate 1 ((k : ℚ) * tc.config_.path_resolution) =
          curve.Evaluate 1 ((k : ℚ) * tc.config_.path_resolution)) →
      ∀ fuel, pathSteps tc.config_ start_s end_s ≤ fuel →
        tc.CalculatePathCost fuel curve' start_s end_s =
          tc.CalculatePathCost fuel curve start_s end_s) := by
  have hsum := CalculatePathCost_eq_sum tc curve start_s end_s hres
  refine ⟨hsum, ?_, lt_pathSteps_iff tc.config_ start_s end_s hres, ?_, ?_, ?_⟩
  · intro fuel v h
    have hmore := pathLoop_fuel_mono tc.config_ curve start_s end_s fuel
      (max fuel (pathSteps tc.config_ start_s end_s)) 0 0 v (le_max_left _ _) h
    have := hsum (max fuel (pathSteps tc.config_ start_s end_s)) (le_max_right _ _)
    unfold TrajectoryCost.CalculatePathCost at this
    rw [hmore] at this
    exact Option.some.inj this
  · intro hrange
    have hx : 0 < (end_s - start_s) / tc.config_.path_resolution :=
      div_pos (by linarith) hres
    have hceil : 0 < ⌈(end_s - start_s) / tc.config_.path_resolution⌉ := Int.ceil_pos.2 hx
    unfold pathSteps
    constructor
    · exact Int.toNat_of_nonneg (le_of_lt hceil)
    · omega
  · intro hrange
    have hx : (end_s - start_s) / tc.config_.path_resolution ≤ 0 :=
      div_nonpos_of_nonpos_of_nonneg (by linarith) (le_of_lt hres)
    have hceil : ⌈(end_s - start_s) / tc.config_.path_resolution⌉ ≤ 0 := by
      apply Int.ceil_le.2
      simpa using hx
    unfold pathSteps
    omega
  · intro curve' hagree fuel hfuel
    rw [hsum fuel hfuel, CalculatePathCost_eq_sum tc curve' start_s end_s hres fuel hfuel]
    congr 2
    apply List.map_congr_left
    intro k hk
    have := hagree k (List.mem_range.1 hk)
    simp only [pathTerm, this.1, this.2]

/-- C13 (amended) at the concrete scenario: ten steps over `[0, 10]` at resolution 1. -/
theorem CalculatePathCost_reference_witness :
    demoCost.CalculatePathCost 10 demoCurve 0 10 =
      some (((List.range (pathSteps demoCost.config_ 0 10)).map (fun (k : ℕ) =>
        |demoCurve.Evaluate 0 ((k : ℚ) * demoCost.config_.path_resolution)| *
          demoCost.config_.path_l_cost +
        |demoCurve.Evaluate 1 ((k : ℚ) * demoCost.config_.path_resolution)| *
          demoCost.config_.path_dl_cost)).sum) :=
  (CalculatePathCost_reference demoCost demoCurve 0 10
    (by norm_num [demoCost, demoConfig])).1 10 (by norm_num [pathSteps, demoCost, demoConfig])

/-- C14. Path loop termination: `CalculatePathCost` returns for some fuel if and only if
`path_resolution > 0` or `end_s ≤ start_s`. With `path_resolution ≤ 0` and
`end_s > start_s` the loop variable `path_s` is `≤ 0 < end_s - start_s` after every
number of iterations and no fuel is enough. The loop states are those of the code: as
long as the guard has held, `k` units of fuel lead to the state after `k` iterations. -/
theorem CalculatePathCost_terminates_iff (tc : TrajectoryCost)
    (curve : QuinticPolynomialCurve1d) (start_s end_s : ℚ) :
    ((∃ fuel v, tc.CalculatePathCost fuel curve start_s end_s = some v) ↔
      (0 < tc.config_.path_resolution ∨ end_s ≤ start_s)) ∧
    (tc.config_.path_resolution ≤ 0 → start_s < end_s →
      (∀ k, (pathState tc.config_ curve k).2 ≤ 0 ∧
        (pathState tc.config_ curve k).2 < end_s - start_s) ∧
      ∀ fuel, tc.CalculatePathCost fuel curve start_s end_s = none) ∧
    (∀ k fuel, (∀ j, j < k → (pathState tc.config_ curve j).2 < end_s - start_s) →
      tc.CalculatePathCost (fuel + k) curve start_s end_s =
        pathLoop tc.config_ curve start_s end_s fuel
          (pathState tc.config_ curve k).1 (pathState tc.config_ curve k).2) := by
  have hstuck : tc.config_.path_resolution ≤ 0 → start_s < end_s →
      (∀ k, (pathState tc.config_ curve k).2 ≤ 0 ∧
        (pathState tc.config_ curve k).2 < end_s - start_s) ∧
      ∀ fuel, tc.CalculatePathCost fuel curve start_s end_s = none := by
    intro hres hrange
    have hk : ∀ k : ℕ, (k : ℚ) * tc.config_.path_resolution ≤ 0 :=
      fun k => mul_nonpos_of_nonneg_of_nonpos (Nat.cast_nonneg k) hres
    constructor
    · intro k
      rw [pathState_snd]
      have := hk k
      constructor <;> linarith
    · intro fuel
      apply pathLoop_none
      intro k _
      have := hk k
      linarith
  refine ⟨⟨?_, ?_⟩, hstuck, ?_⟩
  · rintro ⟨fuel, v, h⟩
    by_contra hnot
    push_neg at hnot
    have := (hstuck hnot.1 hnot.2).2 fuel
    rw [this] at h
    exact absurd h (by simp)
  · rintro (hres | hrange)
    · exact ⟨_, _, CalculatePathCost_eq_sum tc curve start_s end_s hres _ (le_refl _)⟩
    · exact ⟨0, 0, pathLoop_done _ _ _ _ _ _ _ (by linarith)⟩
  · intro k fuel hguard
    exact pathLoop_iterate tc.config_ curve start_s end_s k fuel (0, 0) hguard

/-- C14 at the scenario with `path_resolution = 0` over `[0, 10]`: a thousand units of
fuel are not enough. -/
theorem CalculatePathCost_terminates_iff_witness :
    ({ demoCost with config_ := zeroResolutionConfig } : TrajectoryCost).CalculatePathCost
      1000 demoCurve 0 10 = none :=
  ((CalculatePathCost_terminates_iff { demoCost with config_ := zeroResolutionConfig }
    demoCurve 0 10).2.1 (by norm_num [zeroResolutionConfig]) (by norm_num)).2 1000

/-- The path loop reads the range only through `end_s - start_s`. -/
theorem pathLoop_range_congr (config : DpPolyPathConfig) (curve : QuinticPolynomialCurve1d)
    (start_s end_s start_s' end_s' : ℚ) (hlen : end_s' - start_s' = end_s - start_s) :
    ∀ (fuel : ℕ) (c s : ℚ),
      pathLoop config curve start_s' end_s' fuel c s =
        pathLoop config curve start_s end_s fuel c s := by
  intro fuel
  induction fuel with
  | zero =>
    intro c s
    by_cases hs : s < end_s - start_s
    · rw [pathLoop_zero _ _ _ _ _ _ hs, pathLoop_zero _ _ _ _ _ _ (by rw [hlen]; exact hs)]
    · rw [pathLoop_done _ _ _ _ _ _ _ hs, pathLoop_done _ _ _ _ _ _ _ (by rw [hlen]; exact hs)]
  | succ fuel ih =>
    intro c s
    by_cases hs : s < end_s - start_s
    · rw [pathLoop_succ _ _ _ _ _ _ _ hs,
        pathLoop_succ _ _ _ _ _ _ _ (by rw [hlen]; exact hs), ih]
    · rw [pathLoop_done _ _ _ _ _ _ _ hs, pathLoop_done _ _ _ _ _ _ _ (by rw [hlen]; exact hs)]

/-- C20. For a positive `path_resolution` and non-negative weights: shifting the station
interval by any `c` leaves `CalculatePathCost` unchanged (for every fuel), and for
`end_s ≤ end_s'` both path costs are returned and the cost over `[start_s, end_s]` is
`≤` the cost over `[start_s, end_s']`. -/
theorem CalculatePathCost_shift_mono (tc : TrajectoryCost) (curve : QuinticPolynomialCurve1d)
    (start_s end_s : ℚ) (hres : 0 < tc.config_.path_resolution)
    (hl : 0 ≤ tc.config_.path_l_cost) (hdl : 0 ≤ tc.config_.path_dl_cost) :
    (∀ (c : ℚ) (fuel : ℕ),
      tc.CalculatePathCost fuel curve (start_s + c) (end_s + c) =
        tc.CalculatePathCost fuel curve start_s end_s) ∧
    (∀ end_s' : ℚ, end_s ≤ end_s' →
      ∃ v v', (∀ fuel, pathSteps tc.config_ start_s end_s ≤ fuel →
          tc.CalculatePathCost fuel curve start_s end_s = some v) ∧
        (∀ fuel, pathSteps tc.config_ start_s end_s' ≤ fuel →
          tc.CalculatePathCost fuel curve start_s end_s' = some v') ∧
        v ≤ v') := by
  constructor
  · intro c fuel
    exact pathLoop_range_congr tc.config_ curve start_s end_s (start_s + c) (end_s + c)
      (by ring) fuel 0 0
  · intro end_s' hle
    refine ⟨_, _, CalculatePathCost_eq_sum tc curve start_s end_s hres,
      CalculatePathCost_eq_sum tc curve start_s end_s' hres, ?_⟩
    have hsteps : pathSteps tc.config_ start_s end_s ≤ pathSteps tc.config_ start_s end_s' := by
      unfold pathSteps
      apply Int.toNat_le_toNat
      apply Int.ceil_mono
      exact div_le_div_of_nonneg_right (by linarith) (le_of_lt hres)
    apply List.Sublist.sum_le_sum
      ((List.range_sublist.2 hsteps).map _)
    intro x hx
    obtain ⟨k, _, rfl⟩ := List.mem_map.1 hx
    unfold pathTerm
    have := abs_nonneg (curve.Evaluate 0 ((k : ℚ) * tc.config_.path_resolution))
    have := abs_nonneg (curve.Evaluate 1 ((k : ℚ) * tc.config_.path_resolution))
    positivity

/-- C20 at the concrete scenario: the ranges `[3, 13]` and `[0, 10]` cost the same. -/
theorem CalculatePathCost_shift_mono_witness :
    demoCost.CalculatePathCost 10 demoCurve (0 + 3) (10 + 3) =
      demoCost.CalculatePathCost 10 demoCurve 0 10 :=
  (CalculatePathCost_shift_mono demoCost demoCurve 0 10
    (by norm_num [demoCost, demoConfig]) (by norm_num [demoCost, demoConfig])
    (by norm_num [demoCost, demoConfig])).1 3 10

/-! ## Early break against full scan -/

/-- The full scan adds nothing over a stretch in which every sample lies beyond the
candidate's domain. -/
theorem timeLoopFullScan_beyond (tc : TrajectoryCost) (geo : Geometry)
    (curve : QuinticPolynomialCurve1d) (start_s end_s : ℚ) :
    ∀ (remaining index : ℕ) (ts c : ℚ),
      (∀ k : ℕ, k < remaining → tc.heuristic_speed_data_.EvaluateByTime
        (ts + (k : ℚ) * tc.config_.eval_time_interval) > end_s - tc.init_sl_point_.s) →
      timeLoopFullScan tc geo curve start_s end_s remaining index ts c = some c := by
  intro remaining
  induction remaining with
  | zero => intro index ts c _; rfl
  | succ r ih =>
    intro index ts c h
    have h0 : tc.heuristic_speed_data_.EvaluateByTime ts > end_s - tc.init_sl_point_.s := by
      simpa using h 0 (Nat.succ_pos r)
    have hnext : timeLoopFullScan tc geo curve start_s end_s r (index + 1)
        (ts + tc.config_.eval_time_interval) c = some c := by
      apply ih
      intro k hk
      have := h (k + 1) (by omega)
      have e : ts + tc.config_.eval_time_interval + (k : ℚ) * tc.config_.eval_time_interval =
          ts + ((k + 1 : ℕ) : ℚ) * tc.config_.eval_time_interval := by push_cast; ring
      rw [e]
      exact this
    simp only [timeLoopFullScan]
    split_ifs with h1
    · exact hnext
    · exact hnext

/-- With a non-negative time interval and a non-decreasing speed profile, the loop with
the early break and the full scan agree from every loop state. -/
theorem timeLoop_eq_fullScan (tc : TrajectoryCost) (geo : Geometry)
    (curve : QuinticPolynomialCurve1d) (start_s end_s : ℚ)
    (hint : 0 ≤ tc.config_.eval_time_interval)
    (hmono : ∀ t1 t2 : ℚ, t1 ≤ t2 →
      tc.heuristic_speed_data_.EvaluateByTime t1 ≤ tc.heuristic_speed_data_.EvaluateByTime t2) :
    ∀ (remaining index : ℕ) (ts c : ℚ),
      timeLoop tc geo curve start_s end_s remaining index ts c =
        timeLoopFullScan tc geo curve start_s end_s remaining index ts c := by
  intro remaining
  induction remaining with
  | zero => intro index ts c; rfl
  | succ r ih =>
    intro index ts c
    simp only [timeLoop, timeLoopFullScan]
    split_ifs with h1 h2
    · exact ih _ _ _
    · symm
      apply timeLoopFullScan_beyond
      intro k _
      have hle : ts ≤ ts + tc.config_.eval_time_interval +
          (k : ℚ) * tc.config_.eval_time_interval := by
        have : 0 ≤ (k : ℚ) * tc.config_.eval_time_interval :=
          mul_nonneg (Nat.cast_nonneg k) hint
        linarith
      exact lt_of_lt_of_le h2 (hmono _ _ hle)
    · cases boxLoop tc.config_ geo
          (tc.egoBox geo curve start_s (tc.heuristic_speed_data_.EvaluateByTime ts))
          index tc.obstacle_boxes_ c with
      | none => rfl
      | some c1 => exact ih _ _ _

/-- C15. Early-break equivalence: for a speed profile whose relative arc length is
non-decreasing in time (the time stamps advancing by an `eval_time_interval ≥ 0`), for
every curve, station interval and footprint cache, `CalculateObstacleCost`, which stops
at the first sample beyond the candidate's domain, returns the same result as the
full-scan variant that skips such samples and examines every index in `[0, N)`. -/
theorem early_break_equivalence (tc : TrajectoryCost) (geo : Geometry)
    (curve : QuinticPolynomialCurve1d) (start_s end_s : ℚ)
    (hint : 0 ≤ tc.config_.eval_time_interval)
    (hmono : ∀ t1 t2 : ℚ, t1 ≤ t2 →
      tc.heuristic_speed_data_.EvaluateByTime t1 ≤ tc.heuristic_speed_data_.EvaluateByTime t2) :
    tc.CalculateObstacleCost geo curve start_s end_s =
      tc.CalculateObstacleCostFullScan geo curve start_s end_s :=
  timeLoop_eq_fullScan tc geo curve start_s end_s hint hmono _ _ _ _

/-- C15 at the scenario with the steady profile `t ↦ 5 t` over `[0, 7]`, where
the loop breaks at index 2. -/
theorem early_break_equivalence_witness :
    steadyCost.CalculateObstacleCost demoGeo demoCurve 0 7 =
      steadyCost.CalculateObstacleCostFullScan demoGeo demoCurve 0 7 :=
  early_break_equivalence steadyCost demoGeo demoCurve 0 7
    (by norm_num [steadyCost, demoCost, demoConfig])
    (by
      intro t1 t2 h
      simp only [steadyCost, steadySpeed]
      linarith)

/-! ## Evaluator and cache agree -/

/-- C16. Footprint lookup safety: for every evaluator the constructor returns, every
cached sequence has length `N + 1`, every evaluated sample has an index `< N`, every
lookup at an index `< N` finds a box, and `CalculateObstacleCost` returns a value for
every curve and station interval: the out-of-range error is never raised. -/
theorem lookup_safety (config : DpPolyPathConfig) (reference_line : ReferenceLine)
    (obstacles : List PathObstacle) (vehicle_param : VehicleParam)
    (heuristic_speed_data : SpeedData) (init_sl_point : SLPoint)
    (FLAGS_prediction_total_time : ℚ) (tc : TrajectoryCost)
    (h : TrajectoryCost.construct config reference_line obstacles vehicle_param
        heuristic_speed_data init_sl_point FLAGS_prediction_total_time = .ok tc) :
    (∀ traj ∈ tc.obstacle_boxes_, traj.length = tc.num_of_time_stamps_ + 1) ∧
    (∀ index, index < tc.num_of_time_stamps_ → ∀ traj ∈ tc.obstacle_boxes_,
      ∃ b, traj.get? index = some b) ∧
    (∀ (geo : Geometry) (curve : QuinticPolynomialCurve1d) (start_s end_s : ℚ),
      (∀ sample ∈ evaluatedSamples tc start_s end_s tc.num_of_time_stamps_ 0 0,
        sample.1 < tc.num_of_time_stamps_) ∧
      ∃ v, tc.CalculateObstacleCost geo curve start_s end_s = some v) := by
  have hlen : ∀ traj ∈ tc.obstacle_boxes_, traj.length = tc.num_of_time_stamps_ + 1 := by
    obtain ⟨n, _, _, rfl⟩ := (construct_eq_ok _ _ _ _ _ _ _ _).1 h
    intro traj ht
    obtain ⟨o, _, rfl⟩ := List.mem_map.1 ht
    exact footprint_length _ _ _
  refine ⟨hlen, ?_, ?_⟩
  · intro index hi traj ht
    have hlt : index < traj.length := by rw [hlen traj ht]; omega
    exact ⟨traj.get ⟨index, hlt⟩, List.get?_eq_get hlt⟩
  · intro geo curve start_s end_s
    constructor
    · intro sample hmem
      obtain ⟨k, hk, hi, _⟩ := mem_evaluatedSamples tc start_s end_s _ _ _ _ hmem
      omega
    · exact ⟨_, timeLoop_inRange tc geo curve start_s end_s tc.num_of_time_stamps_ 0 0 0
        (fun t ht => by rw [hlen t ht]; omega)⟩

/-- C16 at the concrete scenario: the obstacle cost over `[0, 10]` is returned. -/
theorem lookup_safety_witness :
    ∃ v, demoCost.CalculateObstacleCost demoGeo demoCurve 0 10 = some v :=
  ((lookup_safety demoConfig demoLine demoObstacles { length := 4, width := 2 }
    demoSpeed { s := 0, l := 0 } 5 demoCost demo_construct).2.2
      demoGeo demoCurve 0 10).2

/-- Every visited loop state sits `k < remaining` iterations after the start, and its
time stamp is the start time plus `k` intervals. -/
theorem mem_visitedTimeStamps (tc : TrajectoryCost) (start_s end_s : ℚ) :
    ∀ (remaining index : ℕ) (ts : ℚ) (visit : ℕ × ℚ),
      visit ∈ visitedTimeStamps tc start_s end_s remaining index ts →
      ∃ k, k < remaining ∧ visit.1 = index + k ∧
        visit.2 = ts + (k : ℚ) * tc.config_.eval_time_interval := by
  intro remaining
  induction remaining with
  | zero => intro index ts visit h; simp [visitedTimeStamps] at h
  | succ r ih =>
    intro index ts visit h
    have here : visit = (index, ts) → ∃ k, k < r + 1 ∧ visit.1 = index + k ∧
        visit.2 = ts + (k : ℚ) * tc.config_.eval_time_interval := by
      intro e
      subst e
      exact ⟨0, by omega, by simp, by simp⟩
    have later : visit ∈ visitedTimeStamps tc start_s end_s r (index + 1)
          (ts + tc.config_.eval_time_interval) →
        ∃ k, k < r + 1 ∧ visit.1 = index + k ∧
          visit.2 = ts + (k : ℚ) * tc.config_.eval_time_interval := by
      intro hmem
      obtain ⟨k, hk, hi, ht⟩ := ih _ _ _ hmem
      refine ⟨k + 1, by omega, by omega, ?_⟩
      rw [ht]
      push_cast
      ring
    simp only [visitedTimeStamps] at h
    split_ifs at h with h1 h2
    · rcases List.mem_cons.1 h with h | h
      · exact here h
      · exact later h
    · exact here (by simpa using h)
    · rcases List.mem_cons.1 h with h | h
      · exact here h
      · exact later h

/-- Every evaluated sample is the speed profile queried at a visited loop state. -/
theorem evaluatedSamples_visited (tc : TrajectoryCost) (start_s end_s : ℚ) :
    ∀ (remaining index : ℕ) (ts : ℚ) (sample : ℕ × ℚ),
      sample ∈ evaluatedSamples tc start_s end_s remaining index ts →
      ∃ t, (sample.1, t) ∈ visitedTimeStamps tc start_s end_s remaining index ts ∧
        sample.2 = tc.heuristic_speed_data_.EvaluateByTime t := by
  intro remaining
  induction remaining with
  | zero => intro index ts sample h; simp [evaluatedSamples] at h
  | succ r ih =>
    intro index ts sample h
    simp only [evaluatedSamples] at h
    simp only [visitedTimeStamps]
    split_ifs at h ⊢ with h1 h2
    · obtain ⟨t, ht, hs⟩ := ih _ _ _ h
      exact ⟨t, List.mem_cons_of_mem _ ht, hs⟩
    · exact absurd h (List.not_mem_nil _)
    · rcases List.mem_cons.1 h with h | h
      · subst h
        exact ⟨ts, List.mem_cons_self _ _, rfl⟩
      · obtain ⟨t, ht, hs⟩ := ih _ _ _ h
        exact ⟨t, List.mem_cons_of_mem _ ht, hs⟩

/-- C17. Time alignment, in exact arithmetic: at every loop state visited by
`CalculateObstacleCost` the index is below `N` and the accumulated time stamp equals
`index * eval_time_interval`; every evaluated sample is the speed profile queried at such
a state; and for an evaluator returned by the constructor, the cached box read at that
index is, for each retained obstacle, its bounding box at its predicted pose at exactly
that time stamp. -/
theorem time_alignment (tc : TrajectoryCost) (start_s end_s : ℚ) :
    (∀ visit ∈ visitedTimeStamps tc start_s end_s tc.num_of_time_stamps_ 0 0,
      visit.1 < tc.num_of_time_stamps_ ∧
      visit.2 = (visit.1 : ℚ) * tc.config_.eval_time_interval) ∧
    (∀ sample ∈ evaluatedSamples tc start_s end_s tc.num_of_time_stamps_ 0 0,
      ∃ t, (sample.1, t) ∈ visitedTimeStamps tc start_s end_s tc.num_of_time_stamps_ 0 0 ∧
        sample.2 = tc.heuristic_speed_data_.EvaluateByTime t) ∧
    (∀ (config : DpPolyPathConfig) (reference_line : ReferenceLine)
        (obstacles : List PathObstacle) (vehicle_param : VehicleParam)
        (heuristic_speed_data : SpeedData) (init_sl_point : SLPoint)
        (FLAGS_prediction_total_time : ℚ),
      TrajectoryCost.construct config reference_line obstacles vehicle_param
        heuristic_speed_data init_sl_point FLAGS_prediction_total_time = .ok tc →
      ∀ visit ∈ visitedTimeStamps tc start_s end_s tc.num_of_time_stamps_ 0 0,
        ∀ (i : ℕ) (o : PathObstacle), (retained obstacles).get? i = some o →
          ∃ seq, tc.obstacle_boxes_.get? i = some seq ∧
            seq.get? visit.1 = some (o.obstacle.GetBoundingBox
              (o.obstacle.GetPointAtTime visit.2))) := by
  have hvisit : ∀ visit ∈ visitedTimeStamps tc start_s end_s tc.num_of_time_stamps_ 0 0,
      visit.1 < tc.num_of_time_stamps_ ∧
      visit.2 = (visit.1 : ℚ) * tc.config_.eval_time_interval := by
    intro visit hmem
    obtain ⟨k, hk, hi, ht⟩ := mem_visitedTimeStamps tc start_s end_s _ _ _ _ hmem
    have hik : visit.1 = k := by omega
    refine ⟨by omega, ?_⟩
    rw [ht, hik]
    ring
  refine ⟨hvisit, fun sample hmem => evaluatedSamples_visited tc start_s end_s _ _ _ _ hmem, ?_⟩
  intro config reference_line obstacles vehicle_param heuristic_speed_data init_sl_point
    FLAGS_prediction_total_time h visit hmem i o hi
  obtain ⟨hlt, ht⟩ := hvisit visit hmem
  obtain ⟨n, _, _, rfl⟩ := (construct_eq_ok _ _ _ _ _ _ _ _).1 h
  refine ⟨footprint config.eval_time_interval n o.obstacle, ?_, ?_⟩
  · simp only [List.get?_eq_getElem?, List.getElem?_map] at hi ⊢
    rw [hi]
    rfl
  · rw [ht]
    exact footprint_lookup _ _ _ _ (le_of_lt hlt)

/-- C17 at the concrete scenario: the loop visits indices 0, 1, 2 at the time stamps
0, 1, 2 (and breaks at index 2). -/
theorem time_alignment_witness :
    visitedTimeStamps demoCost 0 10 demoCost.num_of_time_stamps_ 0 0 =
      [(0, 0), (1, 1), (2, 2)] ∧
    ∀ visit ∈ visitedTimeStamps demoCost 0 10 demoCost.num_of_time_stamps_ 0 0,
      visit.1 < demoCost.num_of_time_stamps_ ∧
      visit.2 = (visit.1 : ℚ) * demoCost.config_.eval_time_interval :=
  ⟨by norm_num [visitedTimeStamps, demoCost, demoConfig, demoSpeed],
    (time_alignment demoCost 0 10).1⟩

/-! ## Frame and empty cache -/

/-- The obstacle loop at `index` reads each cached trajectory only at `index`. -/
theorem boxLoop_congr (config : DpPolyPathConfig) (geo : Geometry) (ego_box : Box2d)
    (index : ℕ) :
    ∀ (boxes boxes' : List (List Box2d)) (c : ℚ),
      List.Forall₂ (fun a b : List Box2d => a.get? index = b.get? index) boxes boxes' →
      boxLoop config geo ego_box index boxes c = boxLoop config geo ego_box index boxes' c := by
  intro boxes boxes' c h
  induction h generalizing c with
  | nil => rfl
  | @cons a b l l' hab _ ih =>
    cases hb : b.get? index with
    | none =>
      rw [boxLoop_cons_none _ _ _ _ _ _ _ (hab.trans hb), boxLoop_cons_none _ _ _ _ _ _ _ hb]
    | some box =>
      rw [boxLoop_cons _ _ _ _ _ _ _ _ (hab.trans hb), boxLoop_cons _ _ _ _ _ _ _ _ hb]
      exact ih _

/-- Two evaluators that differ only in their caches, the caches being read alike at
every index the loop can visit, run the time loop alike. -/
theorem timeLoop_congr (tc tc' : TrajectoryCost) (geo : Geometry)
    (curve : QuinticPolynomialCurve1d) (start_s end_s : ℚ)
    (hconfig : tc'.config_ = tc.config_)
    (hline : tc'.reference_line_ = tc.reference_line_)
    (hvehicle : tc'.vehicle_param_ = tc.vehicle_param_)
    (hspeed : tc'.heuristic_speed_data_ = tc.heuristic_speed_data_)
    (hinit : tc'.init_sl_point_ = tc.init_sl_point_) :
    ∀ (remaining index : ℕ) (ts c : ℚ),
      (∀ i, i < index + remaining →
        List.Forall₂ (fun a b : List Box2d => a.get? i = b.get? i)
          tc.obstacle_boxes_ tc'.obstacle_boxes_) →
      timeLoop tc' geo curve start_s end_s remaining index ts c =
        timeLoop tc geo curve start_s end_s remaining index ts c := by
  intro remaining
  induction remaining with
  | zero => intro index ts c _; rfl
  | succ r ih =>
    intro index ts c hagree
    have hnext : ∀ i, i < index + 1 + r →
        List.Forall₂ (fun a b : List Box2d => a.get? i = b.get? i)
          tc.obstacle_boxes_ tc'.obstacle_boxes_ :=
      fun i hi => hagree i (by omega)
    have hego : ∀ s, tc'.egoBox geo curve start_s s = tc.egoBox geo curve start_s s := by
      intro s
      unfold TrajectoryCost.egoBox
      rw [hline, hvehicle, hinit]
    simp only [timeLoop, hconfig, hspeed, hinit, hego]
    rw [← boxLoop_congr tc.config_ geo _ index _ _ c (hagree index (by omega))]
    split_ifs with h1 h2
    · exact ih _ _ _ hnext
    · rfl
    · cases boxLoop tc.config_ geo
          (tc.egoBox geo curve start_s (tc.heuristic_speed_data_.EvaluateByTime ts))
          index tc.obstacle_boxes_ c with
      | none => rfl
      | some c1 => exact ih _ _ _ hnext

/-- C18. The last cached box is never read: two evaluators with the same members other
than the cache, whose caches hold the same number of sequences and agree, sequence by
sequence, at every index `< N`, return the same `CalculateObstacleCost` for every curve
and station interval, whatever they hold at index `N`. -/
theorem last_box_not_read (tc tc' : TrajectoryCost) (geo : Geometry)
    (curve : QuinticPolynomialCurve1d) (start_s end_s : ℚ)
    (hconfig : tc'.config_ = tc.config_)
    (hline : tc'.reference_line_ = tc.reference_line_)
    (hvehicle : tc'.vehicle_param_ = tc.vehicle_param_)
    (hspeed : tc'.heuristic_speed_data_ = tc.heuristic_speed_data_)
    (hinit : tc'.init_sl_point_ = tc.init_sl_point_)
    (hnum : tc'.num_of_time_stamps_ = tc.num_of_time_stamps_)
    (hagree : List.Forall₂
      (fun a b : List Box2d => ∀ i, i < tc.num_of_time_stamps_ → a.get? i = b.get? i)
      tc.obstacle_boxes_ tc'.obstacle_boxes_) :
    tc'.CalculateObstacleCost geo curve start_s end_s =
      tc.CalculateObstacleCost geo curve start_s end_s := by
  unfold TrajectoryCost.CalculateObstacleCost
  rw [hnum]
  apply timeLoop_congr tc tc' geo curve start_s end_s hconfig hline hvehicle hspeed hinit
  intro i hi
  exact List.Forall₂.imp (fun _ _ hab => hab i (by omega)) hagree

/-- C18 at the concrete scenario: replacing the box at index 3 of the cached sequence
leaves the obstacle cost over `[0, 10]` unchanged. -/
theorem last_box_not_read_witness :
    demoCostOtherLast.CalculateObstacleCost demoGeo demoCurve 0 10 =
      demoCost.CalculateObstacleCost demoGeo demoCurve 0 10 :=
  last_box_not_read demoCost demoCostOtherLast demoGeo demoCurve 0 10 rfl rfl rfl rfl rfl rfl
    (List.Forall₂.cons
      (by
        intro i hi
        have hi3 : i < 3 := hi
        interval_cases i <;> rfl)
      List.Forall₂.nil)

/-- C19. No retained obstacle: when every input obstacle (if any) is flagged ignorable
or is virtual, the evaluator the constructor returns has an empty cache,
`CalculateObstacleCost` returns `0`, and `Calculate` equals `CalculatePathCost`, for
every curve, station interval, speed profile and fuel. -/
theorem no_retained_obstacle (config : DpPolyPathConfig) (reference_line : ReferenceLine)
    (obstacles : List PathObstacle) (vehicle_param : VehicleParam)
    (heuristic_speed_data : SpeedData) (init_sl_point : SLPoint)
    (FLAGS_prediction_total_time : ℚ) (tc : TrajectoryCost)
    (geo : Geometry) (curve : QuinticPolynomialCurve1d) (start_s end_s : ℚ)
    (hall : ∀ o ∈ obstacles, o.IsIgnore = true ∨ o.obstacle.IsVirtual = true)
    (h : TrajectoryCost.construct config reference_line obstacles vehicle_param
        heuristic_speed_data init_sl_point FLAGS_prediction_total_time = .ok tc) :
    tc.obstacle_boxes_ = [] ∧
    tc.CalculateObstacleCost geo curve start_s end_s = some 0 ∧
    ∀ fuel, tc.Calculate geo fuel curve start_s end_s =
      tc.CalculatePathCost fuel curve start_s end_s := by
  have hret : retained obstacles = [] := by
    unfold retained
    apply List.filter_eq_nil_iff.2
    intro o ho
    rcases hall o ho with h1 | h1 <;> simp [h1]
  have hboxes : tc.obstacle_boxes_ = [] := by
    obtain ⟨n, _, _, rfl⟩ := (construct_eq_ok _ _ _ _ _ _ _ _).1 h
    simp [hret]
  have hobs : tc.CalculateObstacleCost geo curve start_s end_s = some 0 := by
    have := timeLoop_inRange tc geo curve start_s end_s tc.num_of_time_stamps_ 0 0 0
      (fun t ht => by rw [hboxes] at ht; exact absurd ht (List.not_mem_nil _))
    have hzero : ∀ l : List (ℕ × ℚ), (l.map (sampleCost tc geo curve start_s)).sum = 0 := by
      intro l
      induction l with
      | nil => rfl
      | cons a l ih => simp [ih, sampleCost, boxSum, hboxes]
    unfold TrajectoryCost.CalculateObstacleCost
    rw [this, hzero]
    norm_num
  refine ⟨hboxes, hobs, fun fuel => ?_⟩
  unfold TrajectoryCost.Calculate
  rw [hobs]
  cases tc.CalculatePathCost fuel curve start_s end_s with
  | none => rfl
  | some p => simp

/-- C19 at the scenario with only the ignorable and the virtual obstacle as input. -/
theorem no_retained_obstacle_witness :
    ({ demoCost with obstacle_boxes_ := [] } : TrajectoryCost).CalculateObstacleCost
      demoGeo demoCurve 0 10 = some 0 :=
  (no_retained_obstacle demoConfig demoLine
    [{ IsIgnore := true, obstacle := demoObstacle },
     { IsIgnore := false, obstacle := { demoObstacle with IsVirtual := true } }]
    { length := 4, width := 2 } demoSpeed { s := 0, l := 0 } 5
    { demoCost with obstacle_boxes_ := [] } demoGeo demoCurve 0 10
    (by
      intro o ho
      simp only [List.mem_cons, List.mem_singleton, List.not_mem_nil, or_false] at ho
      rcases ho with rfl | rfl
      · exact Or.inl rfl
      · exact Or.inr rfl)
    (by
      rw [construct_eq_ok]
      refine ⟨3, demo_castTimeStamps, ?_, ?_⟩
      · intro h; norm_num at h
      · simp [demoCost, retained, demoObstacle])).2.1

/-! ## Path cost in double arithmetic -/

/-- The halves `1/2, 1, ..., 11/2` are doubles. -/
theorem roundDouble_halves :
    roundDouble (1 / 2) = (1 / 2) ∧
    roundDouble 1 = 1 ∧
    roundDouble (3 / 2) = (3 / 2) ∧
    roundDouble 2 = 2 ∧
    roundDouble (5 / 2) = (5 / 2) ∧
    roundDouble 3 = 3 ∧
    roundDouble (7 / 2) = (7 / 2) ∧
    roundDouble 4 = 4 ∧
    roundDouble (9 / 2) = (9 / 2) ∧
    roundDouble 5 = 5 ∧
    roundDouble (11 / 2) = (11 / 2) := by
  refine ⟨?_, ?_, ?_, ?_, ?_, ?_, ?_, ?_, ?_, ?_, ?_⟩
  · rw [roundDouble_of_near (1 / 2) (-1) 4503599627370496 (by norm_num [abs_of_pos]) (by norm_num [abs_of_pos])
      (by norm_num)]
    norm_num
  · rw [roundDouble_of_near 1 0 4503599627370496 (by norm_num [abs_of_pos]) (by norm_num [abs_of_pos])
      (by norm_num)]
    norm_num
  · rw [roundDouble_of_near (3 / 2) 0 6755399441055744 (by norm_num [abs_of_pos]) (by norm_num [abs_of_pos])
      (by norm_num)]
    norm_num
  · rw [roundDouble_of_near 2 1 4503599627370496 (by norm_num [abs_of_pos]) (by norm_num [abs_of_pos])
      (by norm_num)]
    norm_num
  · rw [roundDouble_of_near (5 / 2) 1 5629499534213120 (by norm_num [abs_of_pos]) (by norm_num [abs_of_pos])
      (by norm_num)]
    norm_num
  · rw [roundDouble_of_near 3 1 6755399441055744 (by norm_num [abs_of_pos]) (by norm_num [abs_of_pos])
      (by norm_num)]
    norm_num
  · rw [roundDouble_of_near (7 / 2) 1 7881299347898368 (by norm_num [abs_of_pos]) (by norm_num [abs_of_pos])
      (by norm_num)]
    norm_num
  · rw [roundDouble_of_near 4 2 4503599627370496 (by norm_num [abs_of_pos]) (by norm_num [abs_of_pos])
      (by norm_num)]
    norm_num
  · rw [roundDouble_of_near (9 / 2) 2 5066549580791808 (by norm_num [abs_of_pos]) (by norm_num [abs_of_pos])
      (by norm_num)]
    norm_num
  · rw [roundDouble_of_near 5 2 5629499534213120 (by norm_num [abs_of_pos]) (by norm_num [abs_of_pos])
      (by norm_num)]
    norm_num
  · rw [roundDouble_of_near (11 / 2) 2 6192449487634432 (by norm_num [abs_of_pos]) (by norm_num [abs_of_pos])
      (by norm_num)]
    norm_num

/-- The doubles reached by adding the double `0.1` eleven times, starting from `0`:
the tenth one is `1 - 2^-53`, still below `1`. -/
theorem doubleTenth_sums :
    roundDouble (0 + doubleTenth) = (3602879701896397 / 36028797018963968) ∧
    roundDouble ((3602879701896397 / 36028797018963968) + doubleTenth) = (3602879701896397 / 18014398509481984) ∧
    roundDouble ((3602879701896397 / 18014398509481984) + doubleTenth) = (1351079888211149 / 4503599627370496) ∧
    roundDouble ((1351079888211149 / 4503599627370496) + doubleTenth) = (3602879701896397 / 9007199254740992) ∧
    roundDouble ((3602879701896397 / 9007199254740992) + doubleTenth) = (1 / 2) ∧
    roundDouble ((1 / 2) + doubleTenth) = (5404319552844595 / 9007199254740992) ∧
    roundDouble ((5404319552844595 / 9007199254740992) + doubleTenth) = (3152519739159347 / 4503599627370496) ∧
    roundDouble ((3152519739159347 / 4503599627370496) + doubleTenth) = (7205759403792793 / 9007199254740992) ∧
    roundDouble ((7205759403792793 / 9007199254740992) + doubleTenth) = (2026619832316723 / 2251799813685248) ∧
    roundDouble ((2026619832316723 / 2251799813685248) + doubleTenth) = (9007199254740991 / 9007199254740992) ∧
    roundDouble ((9007199254740991 / 9007199254740992) + doubleTenth) = (4953959590107545 / 4503599627370496) := by
  refine ⟨?_, ?_, ?_, ?_, ?_, ?_, ?_, ?_, ?_, ?_, ?_⟩
  · unfold doubleTenth
    rw [roundDouble_of_near _ (-4) 7205759403792794 (by norm_num [abs_of_pos]) (by norm_num [abs_of_pos])
      (by norm_num [abs_lt])]
    norm_num
  · unfold doubleTenth
    rw [roundDouble_of_near _ (-3) 7205759403792794 (by norm_num [abs_of_pos]) (by norm_num [abs_of_pos])
      (by norm_num [abs_lt])]
    norm_num
  · unfold doubleTenth
    rw [roundDouble_of_tie _ (-2) 5404319552844595 (by norm_num [abs_of_pos]) (by norm_num [abs_of_pos])
      (by norm_num)]
    norm_num
  · unfold doubleTenth
    rw [roundDouble_of_tie _ (-2) 7205759403792794 (by norm_num [abs_of_pos]) (by norm_num [abs_of_pos])
      (by norm_num)]
    norm_num
  · unfold doubleTenth
    rw [roundDouble_of_near _ (-1) 4503599627370496 (by norm_num [abs_of_pos]) (by norm_num [abs_of_pos])
      (by norm_num [abs_lt])]
    norm_num
  · unfold doubleTenth
    rw [roundDouble_of_near _ (-1) 5404319552844595 (by norm_num [abs_of_pos]) (by norm_num [abs_of_pos])
      (by norm_num [abs_lt])]
    norm_num
  · unfold doubleTenth
    rw [roundDouble_of_near _ (-1) 6305039478318694 (by norm_num [abs_of_pos]) (by norm_num [abs_of_pos])
      (by norm_num [abs_lt])]
    norm_num
  · unfold doubleTenth
    rw [roundDouble_of_near _ (-1) 7205759403792793 (by norm_num [abs_of_pos]) (by norm_num [abs_of_pos])
      (by norm_num [abs_lt])]
    norm_num
  · unfold doubleTenth
    rw [roundDouble_of_near _ (-1) 8106479329266892 (by norm_num [abs_of_pos]) (by norm_num [abs_of_pos])
      (by norm_num [abs_lt])]
    norm_num
  · unfold doubleTenth
    rw [roundDouble_of_near _ (-1) 9007199254740991 (by norm_num [abs_of_pos]) (by norm_num [abs_of_pos])
      (by norm_num [abs_lt])]
    norm_num
  · unfold doubleTenth
    rw [roundDouble_of_near _ 0 4953959590107545 (by norm_num [abs_of_pos]) (by norm_num [abs_of_pos])
      (by norm_num [abs_lt])]
    norm_num

/-- One iteration of the double path loop of the evaluator `tenthCost` on the curve
`demoCurve` over `[0, 1]`: the cost grows by the double `1/2` and `path_s` by the double
`0.1`, both sums rounded. -/
theorem pathLoopDouble_tenth_step (fuel : ℕ) (c s c' s' : ℚ) (hs : s < 1)
    (hc : c + 1 / 2 = c') (hr : roundDouble c' = c')
    (hs' : roundDouble (s + doubleTenth) = s') :
    pathLoopDouble tenthConfig demoCurve 0 1 (fuel + 1) c s =
      pathLoopDouble tenthConfig demoCurve 0 1 fuel c' s' := by
  have hone : fsub 1 0 = 1 := by
    unfold fsub
    norm_num [roundDouble_halves.2.1]
  have hcost : fadd (fadd c (fmul |demoCurve.Evaluate 0 s| tenthConfig.path_l_cost))
      (fmul |demoCurve.Evaluate 1 s| tenthConfig.path_dl_cost) = c' := by
    have e1 : fmul |demoCurve.Evaluate 0 s| tenthConfig.path_l_cost = 1 / 2 := by
      unfold fmul
      have habs : |(1 / 2 : ℚ)| = 1 / 2 := abs_of_pos (by norm_num)
      norm_num [demoCurve, tenthConfig, demoConfig, habs, roundDouble_halves.1]
    have e2 : fmul |demoCurve.Evaluate 1 s| tenthConfig.path_dl_cost = 0 := by
      unfold fmul
      norm_num [demoCurve, tenthConfig, demoConfig, roundDouble_zero]
    rw [e1, e2]
    unfold fadd
    rw [hc, hr, add_zero, hr]
  have hstep : fadd s tenthConfig.path_resolution = s' := hs'
  simp only [pathLoopDouble, hone, if_pos hs, hcost, hstep]

theorem pathLoopDouble_tenth_done (fuel : ℕ) (c s : ℚ) (hs : ¬ s < 1) :
    pathLoopDouble tenthConfig demoCurve 0 1 fuel c s = some c := by
  have hone : fsub 1 0 = 1 := by
    unfold fsub
    norm_num [roundDouble_halves.2.1]
  cases fuel <;> simp [pathLoopDouble, hone, hs]

theorem pathLoopDouble_tenth_out (c s : ℚ) (hs : s < 1) :
    pathLoopDouble tenthConfig demoCurve 0 1 0 c s = none := by
  have hone : fsub 1 0 = 1 := by
    unfold fsub
    norm_num [roundDouble_halves.2.1]
  simp [pathLoopDouble, hone, hs]

/-- The run of the double path loop at `path_resolution = 0.1` over `[0, 1]` on a curve
at constant offset `1/2` with unit weights: ten units of fuel are not enough, eleven
return `11/2`. After ten additions `path_s` is `1 - 2^-53 < 1`, so an eleventh step is
taken. -/
theorem pathLoopDouble_tenth_run :
    tenthCost.CalculatePathCostDouble 11 demoCurve 0 1 = some (11 / 2) ∧
    tenthCost.CalculatePathCostDouble 10 demoCurve 0 1 = none := by
  obtain ⟨h1, h2, h3, h4, h5, h6, h7, h8, h9, h10, h11⟩ := roundDouble_halves
  obtain ⟨s1, s2, s3, s4, s5, s6, s7, s8, s9, s10, s11⟩ := doubleTenth_sums
  constructor
  · show pathLoopDouble tenthConfig demoCurve 0 1 11 0 0 = some (11 / 2)
    exact (pathLoopDouble_tenth_step 10 0 0 (1 / 2) (3602879701896397 / 36028797018963968) (by norm_num) (by norm_num)
      h1 s1) |>.trans <|
      (pathLoopDouble_tenth_step 9 (1 / 2) (3602879701896397 / 36028797018963968) 1 (3602879701896397 / 18014398509481984) (by norm_num) (by norm_num)
      h2 s2) |>.trans <|
      (pathLoopDouble_tenth_step 8 1 (3602879701896397 / 18014398509481984) (3 / 2) (1351079888211149 / 4503599627370496) (by norm_num) (by norm_num)
      h3 s3) |>.trans <|
      (pathLoopDouble_tenth_step 7 (3 / 2) (1351079888211149 / 4503599627370496) 2 (3602879701896397 / 9007199254740992) (by norm_num) (by norm_num)
      h4 s4) |>.trans <|
      (pathLoopDouble_tenth_step 6 2 (3602879701896397 / 9007199254740992) (5 / 2) (1 / 2) (by norm_num) (by norm_num)
      h5 s5) |>.trans <|
      (pathLoopDouble_tenth_step 5 (5 / 2) (1 / 2) 3 (5404319552844595 / 9007199254740992) (by norm_num) (by norm_num)
      h6 s6) |>.trans <|
      (pathLoopDouble_tenth_step 4 3 (5404319552844595 / 9007199254740992) (7 / 2) (3152519739159347 / 4503599627370496) (by norm_num) (by norm_num)
      h7 s7) |>.trans <|
      (pathLoopDouble_tenth_step 3 (7 / 2) (3152519739159347 / 4503599627370496) 4 (7205759403792793 / 9007199254740992) (by norm_num) (by norm_num)
      h8 s8) |>.trans <|
      (pathLoopDouble_tenth_step 2 4 (7205759403792793 / 9007199254740992) (9 / 2) (2026619832316723 / 2251799813685248) (by norm_num) (by norm_num)
      h9 s9) |>.trans <|
      (pathLoopDouble_tenth_step 1 (9 / 2) (2026619832316723 / 2251799813685248) 5 (9007199254740991 / 9007199254740992) (by norm_num) (by norm_num)
      h10 s10) |>.trans <|
      (pathLoopDouble_tenth_step 0 5 (9007199254740991 / 9007199254740992) (11 / 2) (4953959590107545 / 4503599627370496) (by norm_num) (by norm_num)
      h11 s11) |>.trans <|
      pathLoopDouble_tenth_done 0 (11 / 2) (4953959590107545 / 4503599627370496) (by norm_num)
  · show pathLoopDouble tenthConfig demoCurve 0 1 10 0 0 = none
    exact (pathLoopDouble_tenth_step 9 0 0 (1 / 2) (3602879701896397 / 36028797018963968) (by norm_num) (by norm_num)
      h1 s1) |>.trans <|
      (pathLoopDouble_tenth_step 8 (1 / 2) (3602879701896397 / 36028797018963968) 1 (3602879701896397 / 18014398509481984) (by norm_num) (by norm_num)
      h2 s2) |>.trans <|
      (pathLoopDouble_tenth_step 7 1 (3602879701896397 / 18014398509481984) (3 / 2) (1351079888211149 / 4503599627370496) (by norm_num) (by norm_num)
      h3 s3) |>.trans <|
      (pathLoopDouble_tenth_step 6 (3 / 2) (1351079888211149 / 4503599627370496) 2 (3602879701896397 / 9007199254740992) (by norm_num) (by norm_num)
      h4 s4) |>.trans <|
      (pathLoopDouble_tenth_step 5 2 (3602879701896397 / 9007199254740992) (5 / 2) (1 / 2) (by norm_num) (by norm_num)
      h5 s5) |>.trans <|
      (pathLoopDouble_tenth_step 4 (5 / 2) (1 / 2) 3 (5404319552844595 / 9007199254740992) (by norm_num) (by norm_num)
      h6 s6) |>.trans <|
      (pathLoopDouble_tenth_step 3 3 (5404319552844595 / 9007199254740992) (7 / 2) (3152519739159347 / 4503599627370496) (by norm_num) (by norm_num)
      h7 s7) |>.trans <|
      (pathLoopDouble_tenth_step 2 (7 / 2) (3152519739159347 / 4503599627370496) 4 (7205759403792793 / 9007199254740992) (by norm_num) (by norm_num)
      h8 s8) |>.trans <|
      (pathLoopDouble_tenth_step 1 4 (7205759403792793 / 9007199254740992) (9 / 2) (2026619832316723 / 2251799813685248) (by norm_num) (by norm_num)
      h9 s9) |>.trans <|
      (pathLoopDouble_tenth_step 0 (9 / 2) (2026619832316723 / 2251799813685248) 5 (9007199254740991 / 9007199254740992) (by norm_num) (by norm_num)
      h10 s10) |>.trans <|
      pathLoopDouble_tenth_out 5 (9007199254740991 / 9007199254740992) (by norm_num)

/-- C8, as stated, fails in double arithmetic: at `path_resolution = 0.1` over `[0, 1]`,
constant offset `L = 1/2`, zero rate and unit weights, the code takes eleven steps and
returns `11/2`, while `⌈R / path_resolution⌉ * L * path_l_cost = 10 * (1/2) * 1 = 5`, and
`11/2` is more than one step's contribution `1/2` away from
`(R / path_resolution) * L * path_l_cost`. -/
theorem path_cost_scaling_counterexample :
    0 < tenthCost.config_.path_resolution ∧ (0 : ℚ) < 1 - 0 ∧
    (∀ s, demoCurve.Evaluate 0 s = 1 / 2) ∧ (∀ s, demoCurve.Evaluate 1 s = 0) ∧
    tenthCost.CalculatePathCostDouble 11 demoCurve 0 1 = some (11 / 2) ∧
    (⌈((1 : ℚ) - 0) / tenthCost.config_.path_resolution⌉ : ℚ) * (1 / 2) *
      tenthCost.config_.path_l_cost = 5 ∧
    ¬ (tenthCost.CalculatePathCostDouble 11 demoCurve 0 1 =
      some ((⌈((1 : ℚ) - 0) / tenthCost.config_.path_resolution⌉ : ℚ) * (1 / 2) *
        tenthCost.config_.path_l_cost)) ∧
    ¬ (|(11 / 2 : ℚ) - ((1 : ℚ) - 0) / tenthCost.config_.path_resolution * (1 / 2) *
        tenthCost.config_.path_l_cost| ≤ (1 / 2) * tenthCost.config_.path_l_cost) := by
  have hceil : ⌈((1 : ℚ) - 0) / tenthCost.config_.path_resolution⌉ = 10 := by
    rw [Int.ceil_eq_iff]
    norm_num [tenthCost, tenthConfig, doubleTenth]
  have hval : (⌈((1 : ℚ) - 0) / tenthCost.config_.path_resolution⌉ : ℚ) * (1 / 2) *
      tenthCost.config_.path_l_cost = 5 := by
    rw [hceil]
    norm_num [tenthCost, tenthConfig, demoConfig]
  refine ⟨by norm_num [tenthCost, tenthConfig, doubleTenth], by norm_num,
    fun s => by simp [demoCurve], fun s => by simp [demoCurve],
    pathLoopDouble_tenth_run.1, hval, ?_, ?_⟩
  · rw [pathLoopDouble_tenth_run.1, hval]
    norm_num
  · have hpos : (0 : ℚ) < 11 / 2 - (1 - 0) / tenthCost.config_.path_resolution * (1 / 2) *
        tenthCost.config_.path_l_cost := by
      norm_num [tenthCost, tenthConfig, demoConfig, doubleTenth]
    rw [abs_of_pos hpos]
    norm_num [tenthCost, tenthConfig, demoConfig, doubleTenth]

/-- C13, as stated, fails in double arithmetic: at `path_resolution = r = 0.1` over
`[0, 1]` the claimed number of terms is `⌈1 / r⌉ = 10` and the claimed sum over
`k = 0 .. 9` is `5`, but the accumulated `path_s` is `1 - 2^-53 < 1` after ten additions,
so the code takes an eleventh step (ten units of fuel do not return) and returns `11/2`. -/
theorem path_cost_reference_counterexample :
    0 < tenthCost.config_.path_resolution ∧
    ⌈((1 : ℚ) - 0) / tenthCost.config_.path_resolution⌉ = 10 ∧
    ((List.range 10).map (fun (k : ℕ) =>
      |demoCurve.Evaluate 0 ((k : ℚ) * tenthCost.config_.path_resolution)| *
        tenthCost.config_.path_l_cost +
      |demoCurve.Evaluate 1 ((k : ℚ) * tenthCost.config_.path_resolution)| *
        tenthCost.config_.path_dl_cost)).sum = 5 ∧
    tenthCost.CalculatePathCostDouble 10 demoCurve 0 1 = none ∧
    tenthCost.CalculatePathCostDouble 11 demoCurve 0 1 = some (11 / 2) ∧
    ¬ (tenthCost.CalculatePathCostDouble 11 demoCurve 0 1 =
      some (((List.range 10).map (fun (k : ℕ) =>
        |demoCurve.Evaluate 0 ((k : ℚ) * tenthCost.config_.path_resolution)| *
          tenthCost.config_.path_l_cost +
        |demoCurve.Evaluate 1 ((k : ℚ) * tenthCost.config_.path_resolution)| *
          tenthCost.config_.path_dl_cost)).sum)) := by
  have hsum : ((List.range 10).map (fun (k : ℕ) =>
      |demoCurve.Evaluate 0 ((k : ℚ) * tenthCost.config_.path_resolution)| *
        tenthCost.config_.path_l_cost +
      |demoCurve.Evaluate 1 ((k : ℚ) * tenthCost.config_.path_resolution)| *
        tenthCost.config_.path_dl_cost)).sum = 5 := by
    have habs : |(1 / 2 : ℚ)| = 1 / 2 := abs_of_pos (by norm_num)
    simp only [demoCurve, tenthCost, tenthConfig, demoConfig, if_true, one_ne_zero,
      if_false, habs, abs_zero, List.map_const', List.length_range, List.sum_replicate]
    norm_num
  refine ⟨by norm_num [tenthCost, tenthConfig, doubleTenth], ?_, hsum,
    pathLoopDouble_tenth_run.2, pathLoopDouble_tenth_run.1, ?_⟩
  · rw [Int.ceil_eq_iff]
    norm_num [tenthCost, tenthConfig, doubleTenth]
  · rw [pathLoopDouble_tenth_run.1, hsum]
    norm_num

end planning
end apollo
